import Mathlib

/-!
Shallow embedding of the booking core of the trainer bot
(src/bot.py together with src/app/db.py and src/app/utils.py).

The model covers a single bookable entity (one training slot or one
tournament), since every claim is scoped to one entity: the `bookings`
list of the state holds exactly the rows of the `bookings` table whose
(entity_type, entity_id) match that entity, in rowid order, and the
`payments` list holds the payment rows of those bookings.  Wall-clock
instants are integers counting seconds since a local midnight epoch;
`created_at` stamps come from a strictly monotone counter (the source
stamps `datetime.utcnow()`, monotone with microsecond resolution).
-/

namespace TrainerBot

/-- Booking status, column `bookings.status`: 'active' | 'waitlist' | 'cancelled'. -/
inductive BStatus
| active
| waitlist
| cancelled
deriving DecidableEq, Repr

/-- Payment status, column `payments.status`: 'pending' | 'confirmed' | 'rejected'. -/
inductive PayStatus
| pending
| confirmed
| rejected
deriving DecidableEq, Repr

/-- A row of the `bookings` table (restricted to the one modelled entity). -/
structure Booking where
  booking_id : Nat
  user_id : Int
  status : BStatus
  seats : Nat
  created_at : Nat
deriving DecidableEq, Repr

/-- A row of the `payments` table. -/
structure Payment where
  booking_id : Nat
  status : PayStatus
  confirmed_by : Option Int
  confirmed_at : Option Nat
deriving DecidableEq, Repr

/-- The mutable store: `users` is the users table as (user_id, group_id) pairs
in insertion order, `bookings`/`payments` the rows for the modelled entity,
`next_id` the AUTOINCREMENT counter for booking_id, `clock` the monotone
`created_at` stamp source. -/
structure St where
  users : List (Int × Option Int)
  bookings : List Booking
  payments : List Payment
  next_id : Nat
  clock : Nat
deriving DecidableEq, Repr

/-- The user ids present in the users table. -/
def uidsOf (st : St) : List Int := st.users.map (·.1)

/-- db.get_user: `SELECT * FROM users WHERE user_id=?` returning the group_id. -/
def get_user (st : St) (uid : Int) : Option (Option Int) :=
  (st.users.find? (fun u => decide (u.1 = uid))).map (·.2)

/-- db.count_active_bookings: `SELECT COALESCE(SUM(seats),0) ... WHERE status='active'`. -/
def count_active_bookings (bs : List Booking) : Nat :=
  ((bs.filter (fun b => decide (b.status = BStatus.active))).map (·.seats)).sum

/-- db.count_bookings with status='waitlist': `SELECT COUNT(*) ... WHERE status=?`. -/
def count_waitlist (bs : List Booking) : Nat :=
  (bs.filter (fun b => decide (b.status = BStatus.waitlist))).length

/-- db.get_user_booking: first row with this user and status='active'. -/
def get_user_booking (bs : List Booking) (uid : Int) : Option Booking :=
  bs.find? (fun b => decide (b.user_id = uid ∧ b.status = BStatus.active))

/-- db.get_user_booking_any: first row with this user and status IN ('active','waitlist'). -/
def get_user_booking_any (bs : List Booking) (uid : Int) : Option Booking :=
  bs.find? (fun b =>
    decide (b.user_id = uid ∧ (b.status = BStatus.active ∨ b.status = BStatus.waitlist)))

/-- db.create_booking: INSERT a booking row (fresh AUTOINCREMENT id, `utcnow`
stamp) and `INSERT OR IGNORE` its 'pending' payment row.  Returns the new
booking_id with the new state. -/
def create_booking (st : St) (uid : Int) (status : BStatus) (seats : Nat) : Nat × St :=
  let bid := st.next_id
  (bid,
    { st with
      bookings := st.bookings ++ [⟨bid, uid, status, seats, st.clock⟩]
      payments :=
        if ∃ p ∈ st.payments, p.booking_id = bid then st.payments
        else st.payments ++ [⟨bid, PayStatus.pending, none, none⟩]
      next_id := bid + 1
      clock := st.clock + 1 })

/-- db.update_booking_seats: `UPDATE bookings SET seats=? WHERE booking_id=?`. -/
def update_booking_seats (bs : List Booking) (bid : Nat) (n : Nat) : List Booking :=
  bs.map (fun b => if b.booking_id = bid then { b with seats := n } else b)

/-- The row mutation `UPDATE bookings SET status=? WHERE booking_id=?` shared
by cancel_booking and update_booking_status. -/
def set_status (bs : List Booking) (bid : Nat) (s : BStatus) : List Booking :=
  bs.map (fun b => if b.booking_id = bid then { b with status := s } else b)

/-- db.cancel_booking: `UPDATE bookings SET status='cancelled' WHERE booking_id=?`.
Setting status to 'cancelled' can never hit the partial unique index
`uq_booking_active` (which only covers rows WHERE status='active'). -/
def cancel_booking (bs : List Booking) (bid : Nat) : List Booking :=
  set_status bs bid BStatus.cancelled

/-- db.update_booking_status: `UPDATE bookings SET status=? WHERE booking_id=?`,
together with the schema's partial unique index
`uq_booking_active ON bookings(user_id, entity_type, entity_id) WHERE status='active'`:
moving a row to 'active' while another row of the same user (same entity) is
already 'active' violates the index, the UPDATE raises and mutates nothing
(`none`).  The call site (waitlist promotion) performs no pre-check, so the
index semantics is part of the observable behaviour and is modelled here. -/
def update_booking_status (bs : List Booking) (bid : Nat) (s : BStatus) :
    Option (List Booking) :=
  match bs.find? (fun b => decide (b.booking_id = bid)) with
  | none => some bs
  | some b =>
    if s = BStatus.active ∧
        ∃ x ∈ bs, x.booking_id ≠ bid ∧ x.user_id = b.user_id ∧ x.status = BStatus.active
    then none
    else some (set_status bs bid s)

/-- The `ORDER BY created_at LIMIT 1` selection as a fold step: keep the
earliest-created row seen so far (the first one among equal stamps). -/
def popStep (acc : Option Booking) (b : Booking) : Option Booking :=
  match acc with
  | none => some b
  | some a => if b.created_at < a.created_at then some b else acc

/-- db.pop_waitlist:
`SELECT * ... WHERE status='waitlist' ORDER BY created_at LIMIT 1`:
the earliest-created waitlisted row (first in rowid order among equals). -/
def pop_waitlist (bs : List Booking) : Option Booking :=
  (bs.filter (fun b => decide (b.status = BStatus.waitlist))).foldl popStep none

/-- The `SELECT MIN(user_id)` aggregate as a fold step. -/
def minStep (acc : Option Int) (u : Int × Option Int) : Option Int :=
  match acc with
  | none => some u.1
  | some m => some (min m u.1)

/-- db.create_guest_user: `SELECT MIN(user_id)` then insert a synthetic user
with id `-1` if the minimum is absent or non-negative, else `min - 1`. -/
def min_user_id (users : List (Int × Option Int)) : Option Int :=
  users.foldl minStep none

/-- db.create_guest_user, returning the fresh synthetic user id. -/
def create_guest_user (st : St) (gid : Option Int) : Int × St :=
  let new_id : Int :=
    match min_user_id st.users with
    | none => -1
    | some m => if 0 ≤ m then -1 else m - 1
  (new_id, { st with users := st.users ++ [(new_id, gid)] })

/-- db.toggle_payment: read the payment row (inserting a 'pending' one if
absent), then flip to 'confirmed' unless already 'confirmed', in which case
flip to 'pending'; stamp confirmed_by / confirmed_at. -/
def toggle_payment (st : St) (bid : Nat) (admin_id : Int) : PayStatus × St :=
  let p0 : PayStatus × List Payment :=
    match st.payments.find? (fun p => decide (p.booking_id = bid)) with
    | none => (PayStatus.pending, st.payments ++ [⟨bid, PayStatus.pending, none, none⟩])
    | some row => (row.status, st.payments)
  let new_status := if p0.1 ≠ PayStatus.confirmed then PayStatus.confirmed else PayStatus.pending
  (new_status,
    { st with
      payments := p0.2.map (fun p =>
        if p.booking_id = bid then
          { p with status := new_status, confirmed_by := some admin_id,
                   confirmed_at := some st.clock }
        else p) })

/-! ### Time-window calculator (src/app/utils.py)

Instants are seconds since a local midnight.  `compute_open_datetime`
mirrors `(starts_at - timedelta(days=open_days_before)).replace(hour=hh,
minute=mm, second=0, microsecond=0)`: subtract whole days, floor to the
day boundary, add the configured time of day. -/

/-- utils.compute_open_datetime. -/
def compute_open_datetime (starts_at : Int) (open_days_before : Nat)
    (open_h open_m : Nat) : Int :=
  let base : Int := starts_at - (open_days_before : Int) * 86400
  (Int.fdiv base 86400) * 86400 + (open_h : Int) * 3600 + (open_m : Int) * 60

/-- utils.compute_close_datetime: `starts_at - minutes` when close_mode is
'minutes_before' with a configured offset, else `starts_at`. -/
def compute_close_datetime (starts_at : Int) (close_mode : String)
    (close_minutes_before : Option Int) : Int :=
  match close_minutes_before with
  | some n => if close_mode = "minutes_before" then starts_at - n * 60 else starts_at
  | none => starts_at

/-- utils.compute_cancel_deadline: `starts_at - cancel_minutes_before` minutes. -/
def compute_cancel_deadline (starts_at : Int) (cancel_minutes_before : Int) : Int :=
  starts_at - cancel_minutes_before * 60

/-! ### Entity configuration -/

/-- A `group_settings` row (the pieces the booking handlers read). -/
structure GroupSettings where
  open_days_before : Nat
  open_h : Nat
  open_m : Nat
  close_mode : String
  close_minutes_before : Option Int
  cancel_minutes_before : Int
deriving DecidableEq, Repr

/-- A `training_slots` row (the pieces the booking handlers read). -/
structure Slot where
  group_id : Int
  starts_at : Int
  capacity : Nat
deriving DecidableEq, Repr

/-- A `tournaments` row (the pieces the booking handlers read);
`waitlist_limit` is already passed through `int(... or 0)`. -/
structure Tournament where
  starts_at : Int
  capacity : Nat
  close_mode : String
  close_minutes_before : Option Int
  cancel_minutes_before : Int
  waitlist_limit : Nat
deriving DecidableEq, Repr

/-! ### Handler results -/

/-- Outcome of the join handlers (the alert the user receives). -/
inductive JoinRes
| notYourGroup
| noGroup
| tooEarly
| closed
| full
| alreadyEnrolled
| joined
| joinedWaitlist
| seatAdded
| alreadyTwo
deriving DecidableEq, Repr

/-- Outcome of the leave handlers.  `cancelled p` carries the booking_id of
the promoted waitlist booking, if any; `dbError` is the unique-index
violation raised by a promotion into a duplicate active booking. -/
inductive LeaveRes
| notEnrolled
| cancelClosed
| seatRemoved
| cancelled (promoted : Option Nat)
| dbError
deriving DecidableEq, Repr

/-- Outcome of the admin book-for-other flow. -/
inductive AdminBookRes
| full
| booked (guest_id : Int)
deriving DecidableEq, Repr

/-! ### Enrollment handlers (src/bot.py)

Each function is the booking core of the corresponding aiogram handler,
with the transport glue (callback parsing, message rendering) stripped:
it takes the entity row, the caller's user id and clock reading, and the
store, and returns the outcome alert plus the new store. -/

/-- bot.cb_train_join (src/bot.py:637): group gate, open/close window,
capacity check, duplicate check, then create an active booking. -/
def cb_train_join (slot : Slot) (gs : GroupSettings) (uid : Int) (now : Int)
    (st : St) : JoinRes × St :=
  if get_user st uid ≠ some (some slot.group_id) then (JoinRes.notYourGroup, st)
  else
    let open_dt := compute_open_datetime slot.starts_at gs.open_days_before gs.open_h gs.open_m
    let close_dt := compute_close_datetime slot.starts_at gs.close_mode gs.close_minutes_before
    if now < open_dt then (JoinRes.tooEarly, st)
    else if close_dt ≤ now then (JoinRes.closed, st)
    else if slot.capacity ≤ count_active_bookings st.bookings then (JoinRes.full, st)
    else
      match get_user_booking st.bookings uid with
      | some _ => (JoinRes.alreadyEnrolled, st)
      | none => (JoinRes.joined, (create_booking st uid BStatus.active 1).2)

/-- bot.cb_train_join_second (src/bot.py:704): same gates as join; if the
caller has no active booking, behaves as join, else increments seats
unless already at two. -/
def cb_train_join_second (slot : Slot) (gs : GroupSettings) (uid : Int) (now : Int)
    (st : St) : JoinRes × St :=
  if get_user st uid ≠ some (some slot.group_id) then (JoinRes.notYourGroup, st)
  else
    let open_dt := compute_open_datetime slot.starts_at gs.open_days_before gs.open_h gs.open_m
    let close_dt := compute_close_datetime slot.starts_at gs.close_mode gs.close_minutes_before
    if now < open_dt then (JoinRes.tooEarly, st)
    else if close_dt ≤ now then (JoinRes.closed, st)
    else if slot.capacity ≤ count_active_bookings st.bookings then (JoinRes.full, st)
    else
      match get_user_booking st.bookings uid with
      | none => (JoinRes.joined, (create_booking st uid BStatus.active 1).2)
      | some b =>
        if 2 ≤ b.seats then (JoinRes.alreadyTwo, st)
        else (JoinRes.seatAdded,
          { st with bookings := update_booking_seats st.bookings b.booking_id (b.seats + 1) })

/-- bot.cb_train_leave (src/bot.py:750): no group gate; cancel-deadline
check, then either decrement a 2-seat booking or cancel it (no waitlist
promotion exists for training slots). -/
def cb_train_leave (slot : Slot) (gs : GroupSettings) (uid : Int) (now : Int)
    (st : St) : LeaveRes × St :=
  let cancel_deadline := compute_cancel_deadline slot.starts_at gs.cancel_minutes_before
  match get_user_booking st.bookings uid with
  | none => (LeaveRes.notEnrolled, st)
  | some b =>
    if cancel_deadline ≤ now then (LeaveRes.cancelClosed, st)
    else if 1 < b.seats then
      (LeaveRes.seatRemoved,
        { st with bookings := update_booking_seats st.bookings b.booking_id (b.seats - 1) })
    else (LeaveRes.cancelled none,
      { st with bookings := cancel_booking st.bookings b.booking_id })

/-- bot.on_message, `admin_training_book` mode (src/bot.py:2668): no window
check at all; capacity check, then create a guest user and an active
booking for it (seats 1, group None for the guest). -/
def admin_training_book (slot : Slot) (st : St) : AdminBookRes × St :=
  if slot.capacity ≤ count_active_bookings st.bookings then (AdminBookRes.full, st)
  else
    let g := create_guest_user st none
    (AdminBookRes.booked g.1, (create_booking g.2 g.1 BStatus.active 1).2)

/-- bot.cb_tour_join (src/bot.py:914): group gates (`if not gid`, then
membership in the tournament's groups), close window (tournaments have no
open gate), duplicate check over active-or-waitlisted, then an active
booking if a seat is free, else a waitlisted booking if the waitlist has
room, else Full. -/
def cb_tour_join (t : Tournament) (tgroups : List Int) (uid : Int) (now : Int)
    (st : St) : JoinRes × St :=
  let gid : Option Int :=
    match get_user st uid with
    | none => none
    | some g => g
  match gid with
  | none => (JoinRes.noGroup, st)
  | some g =>
    if g = 0 then (JoinRes.noGroup, st)
    else if g ∉ tgroups then (JoinRes.notYourGroup, st)
    else
      let close_dt := compute_close_datetime t.starts_at t.close_mode t.close_minutes_before
      if close_dt ≤ now then (JoinRes.closed, st)
      else
        match get_user_booking_any st.bookings uid with
        | some _ => (JoinRes.alreadyEnrolled, st)
        | none =>
          if count_active_bookings st.bookings < t.capacity then
            (JoinRes.joined, (create_booking st uid BStatus.active 1).2)
          else if 0 < t.waitlist_limit ∧ count_waitlist st.bookings < t.waitlist_limit then
            (JoinRes.joinedWaitlist, (create_booking st uid BStatus.waitlist 1).2)
          else (JoinRes.full, st)

/-- bot.cb_tour_join_second (src/bot.py:954): group gates, close window,
capacity check, then: no *active* booking → create one (a waitlisted
caller falls through here); else increment seats unless already at two. -/
def cb_tour_join_second (t : Tournament) (tgroups : List Int) (uid : Int) (now : Int)
    (st : St) : JoinRes × St :=
  let gid : Option Int :=
    match get_user st uid with
    | none => none
    | some g => g
  match gid with
  | none => (JoinRes.noGroup, st)
  | some g =>
    if g = 0 then (JoinRes.noGroup, st)
    else if g ∉ tgroups then (JoinRes.notYourGroup, st)
    else
      let close_dt := compute_close_datetime t.starts_at t.close_mode t.close_minutes_before
      if close_dt ≤ now then (JoinRes.closed, st)
      else if t.capacity ≤ count_active_bookings st.bookings then (JoinRes.full, st)
      else
        match get_user_booking st.bookings uid with
        | none => (JoinRes.joined, (create_booking st uid BStatus.active 1).2)
        | some b =>
          if 2 ≤ b.seats then (JoinRes.alreadyTwo, st)
          else (JoinRes.seatAdded,
            { st with bookings := update_booking_seats st.bookings b.booking_id (b.seats + 1) })

/-- bot.cb_tour_leave (src/bot.py:998): no group gate; cancel-deadline
check over the active-or-waitlisted booking; an active 2-seat booking is
decremented, otherwise the booking is cancelled and, if it was active, the
oldest waitlisted booking (if any) is promoted to active. -/
def cb_tour_leave (t : Tournament) (uid : Int) (now : Int) (st : St) : LeaveRes × St :=
  let cancel_deadline := compute_cancel_deadline t.starts_at t.cancel_minutes_before
  match get_user_booking_any st.bookings uid with
  | none => (LeaveRes.notEnrolled, st)
  | some b =>
    if cancel_deadline ≤ now then (LeaveRes.cancelClosed, st)
    else if b.status = BStatus.active ∧ 1 < b.seats then
      (LeaveRes.seatRemoved,
        { st with bookings := update_booking_seats st.bookings b.booking_id (b.seats - 1) })
    else
      let st1 := { st with bookings := cancel_booking st.bookings b.booking_id }
      if b.status = BStatus.active then
        match pop_waitlist st1.bookings with
        | none => (LeaveRes.cancelled none, st1)
        | some w =>
          match update_booking_status st1.bookings w.booking_id BStatus.active with
          | none => (LeaveRes.dbError, st1)
          | some bs => (LeaveRes.cancelled (some w.booking_id), { st1 with bookings := bs })
      else (LeaveRes.cancelled none, st1)

/-! ### Operation sequences -/

/-- A user-facing operation on one training slot. -/
inductive TrainOp
| join (uid : Int) (now : Int)
| join2 (uid : Int) (now : Int)
| leave (uid : Int) (now : Int)
| adminBook
deriving DecidableEq, Repr

/-- One step of the training-slot state machine. -/
def trainStep (slot : Slot) (gs : GroupSettings) (st : St) : TrainOp → St
| TrainOp.join uid now => (cb_train_join slot gs uid now st).2
| TrainOp.join2 uid now => (cb_train_join_second slot gs uid now st).2
| TrainOp.leave uid now => (cb_train_leave slot gs uid now st).2
| TrainOp.adminBook => (admin_training_book slot st).2

/-- Run a sequence of operations against one training slot. -/
def trainRun (slot : Slot) (gs : GroupSettings) (st : St) (ops : List TrainOp) : St :=
  ops.foldl (trainStep slot gs) st

/-- A user-facing operation on one tournament. -/
inductive TourOp
| join (uid : Int) (now : Int)
| join2 (uid : Int) (now : Int)
| leave (uid : Int) (now : Int)
deriving DecidableEq, Repr

/-- One step of the tournament state machine. -/
def tourStep (t : Tournament) (tgroups : List Int) (st : St) : TourOp → St
| TourOp.join uid now => (cb_tour_join t tgroups uid now st).2
| TourOp.join2 uid now => (cb_tour_join_second t tgroups uid now st).2
| TourOp.leave uid now => (cb_tour_leave t uid now st).2

/-- Run a sequence of operations against one tournament. -/
def tourRun (t : Tournament) (tgroups : List Int) (st : St) (ops : List TourOp) : St :=
  ops.foldl (tourStep t tgroups) st

/-- The store before any booking exists: a users table and nothing else. -/
def initSt (users : List (Int × Option Int)) : St :=
  ⟨users, [], [], 0, 0⟩

/-! ### Basic lemmas about the store operations -/

lemma count_active_cons (b : Booking) (bs : List Booking) :
    count_active_bookings (b :: bs)
      = (if b.status = BStatus.active then b.seats else 0) + count_active_bookings bs := by
  by_cases h : b.status = BStatus.active <;>
    simp [count_active_bookings, List.filter_cons, h]

lemma count_active_append (bs : List Booking) (b : Booking) :
    count_active_bookings (bs ++ [b])
      = count_active_bookings bs + (if b.status = BStatus.active then b.seats else 0) := by
  by_cases h : b.status = BStatus.active <;>
    simp [count_active_bookings, List.filter_append, List.filter_cons, h]

lemma eq_of_mem_of_id {bs : List Booking} (hnd : (bs.map (·.booking_id)).Nodup)
    {x y : Booking} (hx : x ∈ bs) (hy : y ∈ bs) (h : x.booking_id = y.booking_id) :
    x = y := by
  induction bs with
  | nil => cases hx
  | cons a tl ih =>
    simp only [List.map_cons, List.nodup_cons] at hnd
    rcases List.mem_cons.mp hx with rfl | hx' <;> rcases List.mem_cons.mp hy with rfl | hy'
    · rfl
    · exfalso
      have hmem : y.booking_id ∈ tl.map (·.booking_id) := List.mem_map_of_mem _ hy'
      rw [← h] at hmem
      exact hnd.1 hmem
    · exfalso
      have hmem : x.booking_id ∈ tl.map (·.booking_id) := List.mem_map_of_mem _ hx'
      rw [h] at hmem
      exact hnd.1 hmem
    · exact ih hnd.2 hx' hy'

lemma update_seats_cons (a : Booking) (tl : List Booking) (bid : Nat) (n : Nat) :
    update_booking_seats (a :: tl) bid n
      = (if a.booking_id = bid then { a with seats := n } else a)
          :: update_booking_seats tl bid n := rfl

lemma set_status_cons (a : Booking) (tl : List Booking) (bid : Nat) (s : BStatus) :
    set_status (a :: tl) bid s
      = (if a.booking_id = bid then { a with status := s } else a) :: set_status tl bid s := rfl

lemma update_seats_eq_of_fresh {bs : List Booking} {bid : Nat} (n : Nat)
    (h : ∀ b ∈ bs, b.booking_id ≠ bid) : update_booking_seats bs bid n = bs := by
  induction bs with
  | nil => rfl
  | cons a tl ih =>
    rw [update_seats_cons, if_neg (h a (List.mem_cons_self a tl)),
      ih (fun b hb => h b (List.mem_cons_of_mem a hb))]

lemma set_status_eq_of_fresh {bs : List Booking} {bid : Nat} (s : BStatus)
    (h : ∀ b ∈ bs, b.booking_id ≠ bid) : set_status bs bid s = bs := by
  induction bs with
  | nil => rfl
  | cons a tl ih =>
    rw [set_status_cons, if_neg (h a (List.mem_cons_self a tl)),
      ih (fun b hb => h b (List.mem_cons_of_mem a hb))]

lemma ids_update_seats (bs : List Booking) (bid : Nat) (n : Nat) :
    (update_booking_seats bs bid n).map (·.booking_id) = bs.map (·.booking_id) := by
  induction bs with
  | nil => rfl
  | cons a tl ih =>
    rw [update_seats_cons, List.map_cons, List.map_cons, ih]
    by_cases h : a.booking_id = bid <;> simp [h]

lemma ids_set_status (bs : List Booking) (bid : Nat) (s : BStatus) :
    (set_status bs bid s).map (·.booking_id) = bs.map (·.booking_id) := by
  induction bs with
  | nil => rfl
  | cons a tl ih =>
    rw [set_status_cons, List.map_cons, List.map_cons, ih]
    by_cases h : a.booking_id = bid <;> simp [h]

lemma mem_update_seats {bs : List Booking} {bid : Nat} {n : Nat} {x : Booking}
    (hx : x ∈ update_booking_seats bs bid n) :
    ∃ b ∈ bs, x = if b.booking_id = bid then { b with seats := n } else b := by
  rcases List.mem_map.mp hx with ⟨b, hb, h⟩
  exact ⟨b, hb, h.symm⟩

lemma mem_set_status {bs : List Booking} {bid : Nat} {s : BStatus} {x : Booking}
    (hx : x ∈ set_status bs bid s) :
    ∃ b ∈ bs, x = if b.booking_id = bid then { b with status := s } else b := by
  rcases List.mem_map.mp hx with ⟨b, hb, h⟩
  exact ⟨b, hb, h.symm⟩

lemma count_active_update_seats {bs : List Booking} {b : Booking} (n : Nat)
    (hnd : (bs.map (·.booking_id)).Nodup) (hmem : b ∈ bs) :
    count_active_bookings (update_booking_seats bs b.booking_id n)
        + (if b.status = BStatus.active then b.seats else 0)
      = count_active_bookings bs + (if b.status = BStatus.active then n else 0) := by
  induction bs with
  | nil => cases hmem
  | cons a tl ih =>
    simp only [List.map_cons, List.nodup_cons] at hnd
    rcases List.mem_cons.mp hmem with rfl | hmem'
    · have htl : update_booking_seats tl b.booking_id n = tl :=
        update_seats_eq_of_fresh n
          (fun x hx hxe => hnd.1 (hxe ▸ List.mem_map_of_mem _ hx))
      rw [update_seats_cons, if_pos rfl, htl, count_active_cons, count_active_cons]
      simp only [Booking.status]
      split_ifs <;> omega
    · have hid : a.booking_id ≠ b.booking_id :=
        fun h => hnd.1 (h ▸ List.mem_map_of_mem _ hmem')
      rw [update_seats_cons, if_neg hid, count_active_cons, count_active_cons]
      have := ih hnd.2 hmem'
      omega

lemma count_active_set_status {bs : List Booking} {b : Booking} (s : BStatus)
    (hnd : (bs.map (·.booking_id)).Nodup) (hmem : b ∈ bs) :
    count_active_bookings (set_status bs b.booking_id s)
        + (if b.status = BStatus.active then b.seats else 0)
      = count_active_bookings bs + (if s = BStatus.active then b.seats else 0) := by
  induction bs with
  | nil => cases hmem
  | cons a tl ih =>
    simp only [List.map_cons, List.nodup_cons] at hnd
    rcases List.mem_cons.mp hmem with rfl | hmem'
    · have htl : set_status tl b.booking_id s = tl :=
        set_status_eq_of_fresh s
          (fun x hx hxe => hnd.1 (hxe ▸ List.mem_map_of_mem _ hx))
      rw [set_status_cons, if_pos rfl, htl, count_active_cons, count_active_cons]
      simp only [Booking.status, Booking.seats]
      split_ifs <;> omega
    · have hid : a.booking_id ≠ b.booking_id :=
        fun h => hnd.1 (h ▸ List.mem_map_of_mem _ hmem')
      rw [set_status_cons, if_neg hid, count_active_cons, count_active_cons]
      have := ih hnd.2 hmem'
      omega

/-! ### find? / pop_waitlist / guest-user lemmas -/

lemma get_user_booking_eq_some {bs : List Booking} {uid : Int} {b : Booking}
    (h : get_user_booking bs uid = some b) :
    b ∈ bs ∧ b.user_id = uid ∧ b.status = BStatus.active := by
  have hm := List.mem_of_find?_eq_some h
  have hp := List.find?_some h
  rw [decide_eq_true_eq] at hp
  exact ⟨hm, hp.1, hp.2⟩

lemma get_user_booking_eq_none {bs : List Booking} {uid : Int}
    (h : get_user_booking bs uid = none) :
    ∀ b ∈ bs, ¬(b.user_id = uid ∧ b.status = BStatus.active) := by
  intro b hb
  have := List.find?_eq_none.mp h b hb
  rwa [decide_eq_true_eq] at this

lemma get_user_booking_any_eq_some {bs : List Booking} {uid : Int} {b : Booking}
    (h : get_user_booking_any bs uid = some b) :
    b ∈ bs ∧ b.user_id = uid ∧ (b.status = BStatus.active ∨ b.status = BStatus.waitlist) := by
  have hm := List.mem_of_find?_eq_some h
  have hp := List.find?_some h
  rw [decide_eq_true_eq] at hp
  exact ⟨hm, hp.1, hp.2⟩

lemma get_user_booking_any_eq_none {bs : List Booking} {uid : Int}
    (h : get_user_booking_any bs uid = none) :
    ∀ b ∈ bs, ¬(b.user_id = uid ∧ (b.status = BStatus.active ∨ b.status = BStatus.waitlist)) := by
  intro b hb
  have := List.find?_eq_none.mp h b hb
  rwa [decide_eq_true_eq] at this

lemma get_user_mem {st : St} {uid : Int} {g : Option Int}
    (h : get_user st uid = some g) : uid ∈ uidsOf st := by
  unfold get_user at h
  rcases hf : st.users.find? (fun u => decide (u.1 = uid)) with _ | u
  · rw [hf] at h; cases h
  · have hm := List.mem_of_find?_eq_some hf
    have hp := List.find?_some hf
    rw [decide_eq_true_eq] at hp
    exact hp ▸ List.mem_map_of_mem _ hm

lemma find?_id_of_nodup {bs : List Booking} (hnd : (bs.map (·.booking_id)).Nodup)
    {b : Booking} (hb : b ∈ bs) :
    bs.find? (fun x => decide (x.booking_id = b.booking_id)) = some b := by
  induction bs with
  | nil => cases hb
  | cons a tl ih =>
    simp only [List.map_cons, List.nodup_cons] at hnd
    rcases List.mem_cons.mp hb with rfl | hb'
    · simp [List.find?_cons]
    · have hid : a.booking_id ≠ b.booking_id :=
        fun h => hnd.1 (h ▸ List.mem_map_of_mem _ hb')
      rw [List.find?_cons_of_neg _ (by simpa using hid)]
      exact ih hnd.2 hb'

lemma popStep_none (b : Booking) : popStep none b = some b := rfl

lemma popStep_some (a b : Booking) :
    popStep (some a) b = if b.created_at < a.created_at then some b else some a := rfl

/-- The accumulator of the pop_waitlist fold is always drawn from the list
or the initial accumulator. -/
lemma pop_fold_mem :
    ∀ (l : List Booking) (acc : Option Booking) (w : Booking),
      l.foldl popStep acc = some w → w ∈ l ∨ acc = some w := by
  intro l
  induction l with
  | nil => intro acc w h; exact Or.inr h
  | cons c tl ih =>
    intro acc w h
    rw [List.foldl_cons] at h
    rcases ih _ w h with hm | hacc
    · exact Or.inl (List.mem_cons_of_mem c hm)
    · rcases acc with _ | a
      · rw [popStep_none] at hacc
        cases hacc
        exact Or.inl (List.mem_cons_self c tl)
      · rw [popStep_some] at hacc
        split at hacc
        · cases hacc
          exact Or.inl (List.mem_cons_self c tl)
        · exact Or.inr hacc

lemma pop_waitlist_mem {bs : List Booking} {w : Booking}
    (h : pop_waitlist bs = some w) : w ∈ bs ∧ w.status = BStatus.waitlist := by
  unfold pop_waitlist at h
  rcases pop_fold_mem _ none w h with hm | hacc
  · have := List.mem_filter.mp hm
    rw [decide_eq_true_eq] at this
    exact ⟨this.1, this.2⟩
  · cases hacc

lemma pop_waitlist_eq_none {bs : List Booking}
    (h : ∀ b ∈ bs, b.status ≠ BStatus.waitlist) : pop_waitlist bs = none := by
  unfold pop_waitlist
  have : bs.filter (fun b => decide (b.status = BStatus.waitlist)) = [] := by
    rw [List.filter_eq_nil_iff]
    intro b hb
    simpa using h b hb
  rw [this]
  rfl

/-- The fold of pop_waitlist returns the strictly earliest element when one
exists below everything in the list and in the accumulator. -/
lemma pop_fold_min {A : Booking} :
    ∀ (l : List Booking) (acc : Option Booking),
      (∀ c ∈ l, c = A ∨ A.created_at < c.created_at) →
      (acc = some A ∨ (A ∈ l ∧ (acc = none ∨ ∃ a, acc = some a ∧ A.created_at < a.created_at))) →
      l.foldl popStep acc = some A := by
  intro l
  induction l with
  | nil =>
    intro acc _ hacc
    rcases hacc with rfl | ⟨hA, _⟩
    · rfl
    · cases hA
  | cons c tl ih =>
    intro acc hlt hacc
    have hlt' : ∀ x ∈ tl, x = A ∨ A.created_at < x.created_at :=
      fun x hx => hlt x (List.mem_cons_of_mem c hx)
    rw [List.foldl_cons]
    rcases hacc with rfl | ⟨hA, hside⟩
    · -- accumulator already holds A and never changes again
      have hstep : popStep (some A) c = some A := by
        rw [popStep_some]
        rcases hlt c (List.mem_cons_self c tl) with rfl | hltc
        · simp
        · rw [if_neg (by omega)]
      rw [hstep]
      exact ih _ hlt' (Or.inl rfl)
    · rcases hside with rfl | ⟨a, rfl, haA⟩
      · -- accumulator empty: it becomes c
        rw [popStep_none]
        rcases hlt c (List.mem_cons_self c tl) with rfl | hltc
        · exact ih _ hlt' (Or.inl rfl)
        · have hAtl : A ∈ tl := by
            rcases List.mem_cons.mp hA with rfl | h
            · omega
            · exact h
          exact ih _ hlt' (Or.inr ⟨hAtl, Or.inr ⟨c, rfl, hltc⟩⟩)
      · -- accumulator holds some a with A.created_at < a.created_at
        rw [popStep_some]
        rcases hlt c (List.mem_cons_self c tl) with rfl | hltc
        · rw [if_pos haA]
          exact ih _ hlt' (Or.inl rfl)
        · have hAtl : A ∈ tl := by
            rcases List.mem_cons.mp hA with rfl | h
            · omega
            · exact h
          by_cases hca : c.created_at < a.created_at
          · rw [if_pos hca]
            exact ih _ hlt' (Or.inr ⟨hAtl, Or.inr ⟨c, rfl, hltc⟩⟩)
          · rw [if_neg hca]
            exact ih _ hlt' (Or.inr ⟨hAtl, Or.inr ⟨a, rfl, haA⟩⟩)

lemma pop_waitlist_min {bs : List Booking} {A : Booking}
    (hA : A ∈ bs) (hwl : A.status = BStatus.waitlist)
    (hmin : ∀ c ∈ bs, c.status = BStatus.waitlist → c ≠ A → A.created_at < c.created_at) :
    pop_waitlist bs = some A := by
  unfold pop_waitlist
  apply pop_fold_min
  · intro c hc
    have hc' := List.mem_filter.mp hc
    rw [decide_eq_true_eq] at hc'
    by_cases h : c = A
    · exact Or.inl h
    · exact Or.inr (hmin c hc'.1 hc'.2 h)
  · refine Or.inr ⟨?_, Or.inl rfl⟩
    exact List.mem_filter.mpr ⟨hA, by simpa using hwl⟩

lemma minStep_none (u : Int × Option Int) : minStep none u = some u.1 := rfl

lemma minStep_some (a : Int) (u : Int × Option Int) :
    minStep (some a) u = some (min a u.1) := rfl

/-- The fold of min_user_id never forgets a some-accumulator. -/
lemma min_fold_isSome :
    ∀ (l : List (Int × Option Int)) (a : Int), ∃ m, l.foldl minStep (some a) = some m := by
  intro l
  induction l with
  | nil => intro a; exact ⟨a, rfl⟩
  | cons u tl ih =>
    intro a
    rw [List.foldl_cons, minStep_some]
    exact ih (min a u.1)

lemma min_fold_le :
    ∀ (l : List (Int × Option Int)) (acc : Option Int) (m : Int),
      l.foldl minStep acc = some m →
      (∀ a, acc = some a → m ≤ a) ∧ ∀ p ∈ l, m ≤ p.1 := by
  intro l
  induction l with
  | nil =>
    intro acc m h
    refine ⟨fun a ha => ?_, fun p hp => absurd hp (List.not_mem_nil p)⟩
    rw [ha] at h
    cases h
    exact le_refl _
  | cons u tl ih =>
    intro acc m h
    rw [List.foldl_cons] at h
    rcases acc with _ | a
    · rw [minStep_none] at h
      have h2 := ih (some u.1) m h
      refine ⟨fun a ha => ?_, fun p hp => ?_⟩
      · cases ha
      · rcases List.mem_cons.mp hp with rfl | hp'
        · exact h2.1 _ rfl
        · exact h2.2 p hp'
    · rw [minStep_some] at h
      have h2 := ih (some (min a u.1)) m h
      have hm : m ≤ min a u.1 := h2.1 _ rfl
      refine ⟨fun b hb => ?_, fun p hp => ?_⟩
      · cases hb
        exact le_trans hm (min_le_left _ _)
      · rcases List.mem_cons.mp hp with rfl | hp'
        · exact le_trans hm (min_le_right _ _)
        · exact h2.2 p hp'

lemma min_user_id_le {users : List (Int × Option Int)} {m : Int}
    (h : min_user_id users = some m) : ∀ p ∈ users, m ≤ p.1 :=
  (min_fold_le users none m h).2

lemma min_user_id_eq_none {users : List (Int × Option Int)}
    (h : min_user_id users = none) : users = [] := by
  rcases users with _ | ⟨u, tl⟩
  · rfl
  · exfalso
    unfold min_user_id at h
    rw [List.foldl_cons, minStep_none] at h
    rcases min_fold_isSome tl u.1 with ⟨m, hm⟩
    rw [hm] at h
    cases h

/-- db.create_guest_user always yields a negative id absent from the users
table (C8's freshness property). -/
lemma create_guest_user_fresh (st : St) (gid : Option Int) :
    (create_guest_user st gid).1 < 0 ∧ (create_guest_user st gid).1 ∉ uidsOf st := by
  unfold create_guest_user
  rcases hmin : min_user_id st.users with _ | m
  · have : st.users = [] := min_user_id_eq_none hmin
    simp [this, uidsOf]
  · by_cases h0 : 0 ≤ m
    · simp only [hmin, if_pos h0]
      refine ⟨by norm_num, ?_⟩
      intro hmem
      rcases List.mem_map.mp hmem with ⟨p, hp, hpe⟩
      have := min_user_id_le hmin p hp
      omega
    · simp only [hmin, if_neg h0]
      refine ⟨by omega, ?_⟩
      intro hmem
      rcases List.mem_map.mp hmem with ⟨p, hp, hpe⟩
      have := min_user_id_le hmin p hp
      omega

/-! ### The reachable-state invariant -/

/-- At most one active booking per user (the semantics of the partial
unique index `uq_booking_active`, restricted to the modelled entity). -/
def ActiveUnique (bs : List Booking) : Prop :=
  ∀ x ∈ bs, ∀ y ∈ bs,
    x.status = BStatus.active → y.status = BStatus.active → x.user_id = y.user_id → x = y

/-- Invariant of every store reachable by the booking handlers against an
entity of capacity `cap`. -/
structure Inv (cap : Nat) (st : St) : Prop where
  nodup : (st.bookings.map (·.booking_id)).Nodup
  idLt : ∀ b ∈ st.bookings, b.booking_id < st.next_id
  uidMem : ∀ b ∈ st.bookings, b.user_id ∈ uidsOf st
  seatsPos : ∀ b ∈ st.bookings, 1 ≤ b.seats
  wlOne : ∀ b ∈ st.bookings, b.status = BStatus.waitlist → b.seats = 1
  capOk : count_active_bookings st.bookings ≤ cap
  activeUnique : ActiveUnique st.bookings

lemma inv_init (cap : Nat) (users : List (Int × Option Int)) : Inv cap (initSt users) := by
  constructor <;> simp [initSt, count_active_bookings, ActiveUnique]

lemma create_booking_bookings (st : St) (uid : Int) (s : BStatus) (n : Nat) :
    (create_booking st uid s n).2.bookings
      = st.bookings ++ [⟨st.next_id, uid, s, n, st.clock⟩] := rfl

lemma create_booking_users (st : St) (uid : Int) (s : BStatus) (n : Nat) :
    (create_booking st uid s n).2.users = st.users := rfl

lemma create_booking_next_id (st : St) (uid : Int) (s : BStatus) (n : Nat) :
    (create_booking st uid s n).2.next_id = st.next_id + 1 := rfl

lemma create_booking_fst (st : St) (uid : Int) (s : BStatus) (n : Nat) :
    (create_booking st uid s n).1 = st.next_id := rfl

lemma activeUnique_append {bs : List Booking} (h : ActiveUnique bs) (b : Booking)
    (hb : b.status = BStatus.active → ∀ x ∈ bs, x.user_id = b.user_id →
      x.status ≠ BStatus.active) :
    ActiveUnique (bs ++ [b]) := by
  intro x hx y hy hxa hya hu
  rcases List.mem_append.mp hx with hx' | hx' <;> rcases List.mem_append.mp hy with hy' | hy'
  · exact h x hx' y hy' hxa hya hu
  · have : y = b := List.mem_singleton.mp hy'
    subst this
    exact absurd hxa (hb hya x hx' hu)
  · have : x = b := List.mem_singleton.mp hx'
    subst this
    exact absurd hya (hb hxa y hy' hu.symm)
  · rw [List.mem_singleton.mp hx', List.mem_singleton.mp hy']

lemma activeUnique_map {bs : List Booking} {f : Booking → Booking}
    (hst : ∀ x, (f x).status = BStatus.active → x.status = BStatus.active)
    (hus : ∀ x, (f x).user_id = x.user_id)
    (h : ActiveUnique bs) : ActiveUnique (bs.map f) := by
  intro x' hx' y' hy' hxa hya hu
  rcases List.mem_map.mp hx' with ⟨x, hx, rfl⟩
  rcases List.mem_map.mp hy' with ⟨y, hy, rfl⟩
  rw [hus x, hus y] at hu
  rw [h x hx y hy (hst x hxa) (hst y hya) hu]

/-- Invariant preservation for creating a 1-seat booking. -/
lemma inv_create {cap : Nat} {st : St} (hInv : Inv cap st) (uid : Int) (s : BStatus)
    (hu : uid ∈ uidsOf st)
    (hcap : s = BStatus.active → count_active_bookings st.bookings < cap)
    (hnoact : s = BStatus.active →
      ∀ x ∈ st.bookings, x.user_id = uid → x.status ≠ BStatus.active) :
    Inv cap (create_booking st uid s 1).2 := by
  have hfresh : st.next_id ∉ st.bookings.map (·.booking_id) := by
    intro hmem
    rcases List.mem_map.mp hmem with ⟨b, hb, hbe⟩
    exact absurd (hbe ▸ hInv.idLt b hb) (lt_irrefl _)
  constructor
  · rw [create_booking_bookings, List.map_append]
    simp only [List.map_cons, List.map_nil]
    rw [List.nodup_append]
    refine ⟨hInv.nodup, List.nodup_singleton _, ?_⟩
    intro a ha hb
    rw [List.mem_singleton.mp hb] at ha
    exact hfresh ha
  · intro b hb
    rw [create_booking_bookings] at hb
    rw [create_booking_next_id]
    rcases List.mem_append.mp hb with hb' | hb'
    · exact Nat.lt_succ_of_lt (hInv.idLt b hb')
    · rw [List.mem_singleton.mp hb']
      exact Nat.lt_succ_self _
  · intro b hb
    rw [create_booking_bookings] at hb
    have hus : uidsOf (create_booking st uid s 1).2 = uidsOf st := by
      simp [uidsOf, create_booking_users]
    rw [hus]
    rcases List.mem_append.mp hb with hb' | hb'
    · exact hInv.uidMem b hb'
    · rw [List.mem_singleton.mp hb']
      exact hu
  · intro b hb
    rw [create_booking_bookings] at hb
    rcases List.mem_append.mp hb with hb' | hb'
    · exact hInv.seatsPos b hb'
    · rw [List.mem_singleton.mp hb']
  · intro b hb
    rw [create_booking_bookings] at hb
    rcases List.mem_append.mp hb with hb' | hb'
    · exact hInv.wlOne b hb'
    · rw [List.mem_singleton.mp hb']
      intro _; rfl
  · rw [create_booking_bookings, count_active_append]
    show count_active_bookings st.bookings + (if s = BStatus.active then 1 else 0) ≤ cap
    by_cases hs : s = BStatus.active
    · have := hcap hs
      rw [if_pos hs]
      omega
    · rw [if_neg hs]
      have := hInv.capOk
      omega
  · rw [create_booking_bookings]
    exact activeUnique_append hInv.activeUnique _ hnoact

/-- Invariant preservation for `UPDATE bookings SET seats=?` on a member
active booking. -/
lemma inv_update_seats {cap : Nat} {st : St} {b : Booking} {n : Nat} (hInv : Inv cap st)
    (hb : b ∈ st.bookings) (hact : b.status = BStatus.active) (hn : 1 ≤ n)
    (hcap : count_active_bookings st.bookings + n ≤ cap + b.seats) :
    Inv cap { st with bookings := update_booking_seats st.bookings b.booking_id n } := by
  have hcount := count_active_update_seats n hInv.nodup hb
  rw [if_pos hact, if_pos hact] at hcount
  constructor
  · rw [ids_update_seats]
    exact hInv.nodup
  · intro x hx
    rcases mem_update_seats hx with ⟨y, hy, hxe⟩
    have := hInv.idLt y hy
    rw [hxe]
    split <;> simpa using this
  · intro x hx
    rcases mem_update_seats hx with ⟨y, hy, hxe⟩
    have := hInv.uidMem y hy
    rw [hxe]
    split <;> simpa [uidsOf] using this
  · intro x hx
    rcases mem_update_seats hx with ⟨y, hy, hxe⟩
    rw [hxe]
    split
    · exact hn
    · exact hInv.seatsPos y hy
  · intro x hx hxw
    rcases mem_update_seats hx with ⟨y, hy, hxe⟩
    subst hxe
    by_cases hid : y.booking_id = b.booking_id
    · rw [if_pos hid] at hxw
      have hyb : y = b := eq_of_mem_of_id hInv.nodup hy hb hid
      subst hyb
      have : y.status = BStatus.waitlist := hxw
      rw [hact] at this
      cases this
    · rw [if_neg hid] at hxw ⊢
      exact hInv.wlOne y hy hxw
  · simp only
    omega
  · refine activeUnique_map (fun x => ?_) (fun x => by split <;> rfl) hInv.activeUnique
    split
    · exact fun h => h
    · exact fun h => h

/-- Invariant preservation for `UPDATE bookings SET status=?` to a
non-active status on a member booking. -/
lemma inv_set_status_nonactive {cap : Nat} {st : St} {b : Booking} {s : BStatus}
    (hInv : Inv cap st) (hb : b ∈ st.bookings)
    (hsa : s ≠ BStatus.active) (hsw : s ≠ BStatus.waitlist) :
    Inv cap { st with bookings := set_status st.bookings b.booking_id s } := by
  have hcount := count_active_set_status s hInv.nodup hb
  rw [if_neg hsa] at hcount
  constructor
  · rw [ids_set_status]
    exact hInv.nodup
  · intro x hx
    rcases mem_set_status hx with ⟨y, hy, hxe⟩
    have := hInv.idLt y hy
    rw [hxe]
    split <;> simpa using this
  · intro x hx
    rcases mem_set_status hx with ⟨y, hy, hxe⟩
    have := hInv.uidMem y hy
    rw [hxe]
    split <;> simpa [uidsOf] using this
  · intro x hx
    rcases mem_set_status hx with ⟨y, hy, hxe⟩
    have := hInv.seatsPos y hy
    rw [hxe]
    split <;> simpa using this
  · intro x hx hxw
    rcases mem_set_status hx with ⟨y, hy, hxe⟩
    subst hxe
    by_cases hid : y.booking_id = b.booking_id
    · rw [if_pos hid] at hxw
      exact absurd hxw hsw
    · rw [if_neg hid] at hxw ⊢
      exact hInv.wlOne y hy hxw
  · simp only
    have := hInv.capOk
    split_ifs at hcount <;> omega
  · refine activeUnique_map (fun x => ?_) (fun x => by split <;> rfl) hInv.activeUnique
    split
    · intro hxa
      exact absurd hxa hsa
    · exact fun h => h

lemma update_status_eq_set {bs : List Booking} {bid : Nat} {s : BStatus} {bs' : List Booking}
    (h : update_booking_status bs bid s = some bs') : bs' = set_status bs bid s := by
  unfold update_booking_status at h
  split at h
  · rename_i hf
    have hfr : ∀ x ∈ bs, x.booking_id ≠ bid := by
      intro x hx
      have := List.find?_eq_none.mp hf x hx
      simpa using this
    rw [set_status_eq_of_fresh s hfr]
    injection h with h'
    exact h'.symm
  · split at h
    · cases h
    · injection h with h'
      exact h'.symm

lemma update_status_active_guard {bs : List Booking} {w : Booking} {bs' : List Booking}
    (hnd : (bs.map (·.booking_id)).Nodup) (hw : w ∈ bs)
    (hupd : update_booking_status bs w.booking_id BStatus.active = some bs') :
    ∀ x ∈ bs, x.booking_id ≠ w.booking_id → x.user_id = w.user_id →
      x.status ≠ BStatus.active := by
  unfold update_booking_status at hupd
  split at hupd
  · rename_i hf
    have := List.find?_eq_none.mp hf w hw
    simp at this
  · rename_i b hf
    have hb : b = w := by
      have h2 := hf.symm.trans (find?_id_of_nodup hnd hw)
      injection h2
    subst hb
    split at hupd
    · cases hupd
    · rename_i hcond
      intro x hx hid hu hxa
      exact hcond ⟨rfl, x, hx, hid, hu, hxa⟩

/-- Invariant preservation for a successful waitlist promotion. -/
lemma inv_promote {cap : Nat} {st : St} {w : Booking} {bs' : List Booking}
    (hInv : Inv cap st) (hw : w ∈ st.bookings) (hwl : w.status = BStatus.waitlist)
    (hcap : count_active_bookings st.bookings + w.seats ≤ cap)
    (hupd : update_booking_status st.bookings w.booking_id BStatus.active = some bs') :
    Inv cap { st with bookings := bs' } := by
  have hguard := update_status_active_guard hInv.nodup hw hupd
  have hset : bs' = set_status st.bookings w.booking_id BStatus.active :=
    update_status_eq_set hupd
  subst hset
  have hcount := count_active_set_status BStatus.active hInv.nodup hw
  rw [if_neg (by rw [hwl]; exact fun hc => by cases hc), if_pos rfl] at hcount
  constructor
  · rw [ids_set_status]
    exact hInv.nodup
  · intro x hx
    rcases mem_set_status hx with ⟨y, hy, hxe⟩
    have := hInv.idLt y hy
    rw [hxe]
    split <;> simpa using this
  · intro x hx
    rcases mem_set_status hx with ⟨y, hy, hxe⟩
    have := hInv.uidMem y hy
    rw [hxe]
    split <;> simpa [uidsOf] using this
  · intro x hx
    rcases mem_set_status hx with ⟨y, hy, hxe⟩
    have := hInv.seatsPos y hy
    rw [hxe]
    split <;> simpa using this
  · intro x hx hxw
    rcases mem_set_status hx with ⟨y, hy, hxe⟩
    subst hxe
    by_cases hid : y.booking_id = w.booking_id
    · rw [if_pos hid] at hxw
      have : BStatus.active = BStatus.waitlist := hxw
      cases this
    · rw [if_neg hid] at hxw ⊢
      exact hInv.wlOne y hy hxw
  · simp only
    omega
  · intro x' hx' y' hy' hxa hya hu
    rcases mem_set_status hx' with ⟨x, hx, hxe⟩
    rcases mem_set_status hy' with ⟨y, hy, hye⟩
    subst hxe
    subst hye
    by_cases hxid : x.booking_id = w.booking_id <;>
      by_cases hyid : y.booking_id = w.booking_id
    · rw [if_pos hxid, if_pos hyid]
      rw [eq_of_mem_of_id hInv.nodup hx hw hxid, eq_of_mem_of_id hInv.nodup hy hw hyid]
    · exfalso
      rw [if_pos hxid, if_neg hyid] at hu
      rw [if_neg hyid] at hya
      have hu' : x.user_id = y.user_id := hu
      rw [eq_of_mem_of_id hInv.nodup hx hw hxid] at hu'
      exact hguard y hy hyid hu'.symm hya
    · exfalso
      rw [if_neg hxid, if_pos hyid] at hu
      rw [if_neg hxid] at hxa
      have hu' : x.user_id = y.user_id := hu
      rw [eq_of_mem_of_id hInv.nodup hy hw hyid] at hu'
      exact hguard x hx hxid hu' hxa
    · rw [if_neg hxid] at hxa ⊢
      rw [if_neg hyid] at hya ⊢
      rw [if_neg hxid, if_neg hyid] at hu
      exact hInv.activeUnique x hx y hy hxa hya hu

lemma create_guest_user_snd (st : St) (gid : Option Int) :
    (create_guest_user st gid).2
      = { st with users := st.users ++ [((create_guest_user st gid).1, gid)] } := rfl

lemma uidsOf_users_append (st : St) (l : List (Int × Option Int)) :
    uidsOf { st with users := st.users ++ l } = uidsOf st ++ l.map (·.1) := by
  simp [uidsOf]

/-- Registering extra users preserves the invariant. -/
lemma inv_users_append {cap : Nat} {st : St} (l : List (Int × Option Int))
    (hInv : Inv cap st) : Inv cap { st with users := st.users ++ l } := by
  constructor
  · exact hInv.nodup
  · exact hInv.idLt
  · intro b hb
    rw [uidsOf_users_append]
    exact List.mem_append_left _ (hInv.uidMem b hb)
  · exact hInv.seatsPos
  · exact hInv.wlOne
  · exact hInv.capOk
  · exact hInv.activeUnique

lemma cancel_booking_eq (bs : List Booking) (bid : Nat) :
    cancel_booking bs bid = set_status bs bid BStatus.cancelled := rfl

lemma gid_some {st : St} {uid : Int} {g : Int}
    (h : (match get_user st uid with
          | none => none
          | some g₀ => g₀) = some g) :
    get_user st uid = some (some g) := by
  rcases hg : get_user st uid with _ | g'
  · rw [hg] at h
    cases h
  · rw [hg] at h
    have h' : g' = some g := h
    rw [h']

/-- Every training-slot handler step preserves the invariant. -/
theorem inv_trainStep (slot : Slot) (gs : GroupSettings) {st : St} (op : TrainOp)
    (h : Inv slot.capacity st) : Inv slot.capacity (trainStep slot gs st op) := by
  cases op with
  | join uid now =>
    simp only [trainStep, cb_train_join]
    split
    · exact h
    · rename_i hgrp
      split
      · exact h
      split
      · exact h
      split
      · exact h
      rename_i hcap
      split
      · exact h
      rename_i hnone
      refine inv_create h uid BStatus.active ?_ ?_ ?_
      · exact get_user_mem (not_not.mp hgrp)
      · exact fun _ => Nat.lt_of_not_le hcap
      · intro _ x hx hxu hxa
        exact get_user_booking_eq_none hnone x hx ⟨hxu, hxa⟩
  | join2 uid now =>
    simp only [trainStep, cb_train_join_second]
    split
    · exact h
    · rename_i hgrp
      split
      · exact h
      split
      · exact h
      split
      · exact h
      rename_i hcap
      split
      · rename_i hnone
        refine inv_create h uid BStatus.active ?_ ?_ ?_
        · exact get_user_mem (not_not.mp hgrp)
        · exact fun _ => Nat.lt_of_not_le hcap
        · intro _ x hx hxu hxa
          exact get_user_booking_eq_none hnone x hx ⟨hxu, hxa⟩
      · rename_i b hsome
        split
        · exact h
        · have hb := get_user_booking_eq_some hsome
          have hcap' := Nat.lt_of_not_le hcap
          refine inv_update_seats h hb.1 hb.2.2 (by omega) (by omega)
  | leave uid now =>
    simp only [trainStep, cb_train_leave]
    split
    · exact h
    · rename_i b hsome
      have hb := get_user_booking_eq_some hsome
      split
      · exact h
      split
      · rename_i hseats
        have := h.capOk
        refine inv_update_seats h hb.1 hb.2.2 (by omega) (by omega)
      · exact inv_set_status_nonactive h hb.1 (by decide) (by decide)
  | adminBook =>
    simp only [trainStep, admin_training_book]
    split
    · exact h
    · rename_i hcap
      have hfresh := create_guest_user_fresh st none
      have h1 : Inv slot.capacity (create_guest_user st none).2 := by
        rw [create_guest_user_snd]
        exact inv_users_append _ h
      refine inv_create h1 _ BStatus.active ?_ ?_ ?_
      · rw [create_guest_user_snd, uidsOf_users_append]
        apply List.mem_append_right
        simp
      · intro _
        exact Nat.lt_of_not_le hcap
      · intro _ x hx hxu
        exact fun _ => hfresh.2 (hxu ▸ h.uidMem x hx)

/-- Every tournament handler step preserves the invariant. -/
theorem inv_tourStep (t : Tournament) (tgroups : List Int) {st : St} (op : TourOp)
    (h : Inv t.capacity st) : Inv t.capacity (tourStep t tgroups st op) := by
  cases op with
  | join uid now =>
    simp only [tourStep, cb_tour_join]
    split
    · exact h
    · rename_i g hgid
      have hget := gid_some hgid
      split
      · exact h
      split
      · exact h
      split
      · exact h
      split
      · exact h
      rename_i hnone
      split
      · rename_i hc
        refine inv_create h uid BStatus.active (get_user_mem hget) (fun _ => hc) ?_
        intro _ x hx hxu hxa
        exact get_user_booking_any_eq_none hnone x hx ⟨hxu, Or.inl hxa⟩
      split
      · refine inv_create h uid BStatus.waitlist (get_user_mem hget) ?_ ?_
        · intro hs; cases hs
        · intro hs; cases hs
      · exact h
  | join2 uid now =>
    simp only [tourStep, cb_tour_join_second]
    split
    · exact h
    · rename_i g hgid
      have hget := gid_some hgid
      split
      · exact h
      split
      · exact h
      split
      · exact h
      split
      · exact h
      rename_i hcap
      split
      · rename_i hnone
        refine inv_create h uid BStatus.active (get_user_mem hget)
          (fun _ => Nat.lt_of_not_le hcap) ?_
        intro _ x hx hxu hxa
        exact get_user_booking_eq_none hnone x hx ⟨hxu, hxa⟩
      · rename_i b hsome
        split
        · exact h
        · have hb := get_user_booking_eq_some hsome
          have hcap' := Nat.lt_of_not_le hcap
          refine inv_update_seats h hb.1 hb.2.2 (by omega) (by omega)
  | leave uid now =>
    simp only [tourStep, cb_tour_leave]
    split
    · exact h
    · rename_i b hsome
      have hb := get_user_booking_any_eq_some hsome
      split
      · exact h
      split
      · rename_i hcond
        have := h.capOk
        refine inv_update_seats h hb.1 hcond.1 (by omega) (by omega)
      · rename_i hncond
        have h1 : Inv t.capacity
            { st with bookings := cancel_booking st.bookings b.booking_id } :=
          inv_set_status_nonactive h hb.1 (by decide) (by decide)
        split
        · rename_i hba
          split
          · exact h1
          · rename_i w hpop
            split
            · exact h1
            · rename_i bs2 hupd
              have hwm := pop_waitlist_mem hpop
              have hw1 : w.seats = 1 := h1.wlOne w hwm.1 hwm.2
              have hbseats : b.seats = 1 := by
                have := h.seatsPos b hb.1
                have hns : ¬ 1 < b.seats := fun hlt => hncond ⟨hba, hlt⟩
                omega
              have hcount := count_active_set_status BStatus.cancelled h.nodup hb.1
              rw [if_pos hba, if_neg (by decide)] at hcount
              have hcap2 : count_active_bookings
                  (cancel_booking st.bookings b.booking_id) + w.seats ≤ t.capacity := by
                have := h.capOk
                rw [cancel_booking_eq]
                omega
              exact @inv_promote t.capacity
                { st with bookings := cancel_booking st.bookings b.booking_id }
                w bs2 h1 hwm.1 hwm.2 hcap2 hupd
        · exact h1

/-- The invariant holds along any run against one training slot. -/
theorem inv_trainRun (slot : Slot) (gs : GroupSettings) :
    ∀ (ops : List TrainOp) (st : St),
      Inv slot.capacity st → Inv slot.capacity (trainRun slot gs st ops) := by
  intro ops
  induction ops with
  | nil => exact fun st h => h
  | cons op tl ih => exact fun st h => ih _ (inv_trainStep slot gs op h)

/-- The invariant holds along any run against one tournament. -/
theorem inv_tourRun (t : Tournament) (tgroups : List Int) :
    ∀ (ops : List TourOp) (st : St),
      Inv t.capacity st → Inv t.capacity (tourRun t tgroups st ops) := by
  intro ops
  induction ops with
  | nil => exact fun st h => h
  | cons op tl ih => exact fun st h => ih _ (inv_tourStep t tgroups op h)

/-! ### Claim theorems -/

lemma length_le_one_of_forall_eq {l : List Booking} (hnd : l.Nodup)
    (h : ∀ x ∈ l, ∀ y ∈ l, x = y) : l.length ≤ 1 := by
  rcases l with _ | ⟨x, _ | ⟨y, tl⟩⟩
  · simp
  · simp
  · exfalso
    rw [List.nodup_cons] at hnd
    have hxy : x = y := h x (by simp) y (by simp)
    exact hnd.1 (by rw [hxy]; exact List.mem_cons_self y tl)

lemma active_per_user_le_one {bs : List Booking}
    (hnd : (bs.map (·.booking_id)).Nodup) (hau : ActiveUnique bs) (uid : Int) :
    (bs.filter (fun b => decide (b.user_id = uid ∧ b.status = BStatus.active))).length ≤ 1 := by
  apply length_le_one_of_forall_eq ((List.Nodup.of_map _ hnd).filter _)
  intro x hx y hy
  have hx' := List.mem_filter.mp hx
  have hy' := List.mem_filter.mp hy
  rw [decide_eq_true_eq] at hx' hy'
  exact hau x hx'.1 y hy'.1 hx'.2.2 hy'.2.2 (hx'.2.1.trans hy'.2.1.symm)

/-- C1: for every sequence of Join / JoinSecondSeat / Leave / AdminBook
operations against one bookable entity started from a fresh store, the sum
of seats over its active bookings never exceeds the entity's capacity —
for training slots (whose operations include the admin book-for-other) and
for tournaments (whose leave may promote from the waitlist) alike.  Since
every prefix of a run is itself a run, the bound holds after every
operation. -/
theorem C1_capacity_invariant :
    (∀ (slot : Slot) (gs : GroupSettings) (users : List (Int × Option Int))
        (ops : List TrainOp),
      count_active_bookings (trainRun slot gs (initSt users) ops).bookings ≤ slot.capacity)
    ∧ (∀ (t : Tournament) (tgroups : List Int) (users : List (Int × Option Int))
        (ops : List TourOp),
      count_active_bookings (tourRun t tgroups (initSt users) ops).bookings ≤ t.capacity) :=
  ⟨fun slot gs users ops => (inv_trainRun slot gs ops _ (inv_init _ users)).capOk,
   fun t tgroups users ops => (inv_tourRun t tgroups ops _ (inv_init _ users)).capOk⟩

/-- C2 counterexample: the claimed "at most one non-cancelled booking per
(user, entity)" fails.  Tournament of capacity 2 with a 1-slot waitlist:
user 1 joins and takes a second seat, user 2 joins the waitlist, user 1
releases one seat, and user 2's JoinSecondSeat — which only checks for an
*active* booking (src/bot.py:981) — creates a second, active booking while
the waitlisted one stays alive: user 2 ends up with two non-cancelled
bookings. -/
theorem C2_counterexample :
    ((tourRun ⟨1000000, 2, "at_start", none, 0, 1⟩ [5]
        (initSt [(1, some 5), (2, some 5)])
        [TourOp.join 1 0, TourOp.join2 1 1, TourOp.join 2 2,
         TourOp.leave 1 3, TourOp.join2 2 4]).bookings.filter
      (fun b => decide (b.user_id = 2 ∧ b.status ≠ BStatus.cancelled))).length = 2 := by
  decide

/-- C2 amended: after any sequence of Join / JoinSecondSeat / Leave /
AdminBook operations from a fresh store, every user holds at most one
*Active* booking per entity (the property the partial unique index
`uq_booking_active` actually expresses); a user may additionally hold one
Waitlisted booking for the same tournament. -/
theorem C2_amended_at_most_one_active :
    (∀ (slot : Slot) (gs : GroupSettings) (users : List (Int × Option Int))
        (ops : List TrainOp) (uid : Int),
      ((trainRun slot gs (initSt users) ops).bookings.filter
        (fun b => decide (b.user_id = uid ∧ b.status = BStatus.active))).length ≤ 1)
    ∧ (∀ (t : Tournament) (tgroups : List Int) (users : List (Int × Option Int))
        (ops : List TourOp) (uid : Int),
      ((tourRun t tgroups (initSt users) ops).bookings.filter
        (fun b => decide (b.user_id = uid ∧ b.status = BStatus.active))).length ≤ 1) :=
  ⟨fun slot gs users ops uid =>
      have h := inv_trainRun slot gs ops _ (inv_init slot.capacity users)
      active_per_user_le_one h.nodup h.activeUnique uid,
   fun t tgroups users ops uid =>
      have h := inv_tourRun t tgroups ops _ (inv_init t.capacity users)
      active_per_user_le_one h.nodup h.activeUnique uid⟩

/-- C10: every waitlisted booking reachable by tournament operations holds
exactly one seat — waitlisted bookings are created with seats = 1
(src/bot.py:946), JoinSecondSeat increments only an active booking, and
Leave's decrement applies only to active bookings — so a promotion always
occupies exactly one seat. -/
theorem C10_waitlist_single_seat :
    ∀ (t : Tournament) (tgroups : List Int) (users : List (Int × Option Int))
      (ops : List TourOp),
      ∀ b ∈ (tourRun t tgroups (initSt users) ops).bookings,
        b.status = BStatus.waitlist → b.seats = 1 :=
  fun t tgroups users ops => (inv_tourRun t tgroups ops _ (inv_init _ users)).wlOne

/-- Witness for C10 at a concrete run: capacity-1 tournament, user 1 takes
the seat, user 2 lands on the waitlist with a 1-seat booking. -/
theorem C10_waitlist_single_seat_witness :
    (⟨1, 2, BStatus.waitlist, 1, 1⟩ : Booking) ∈
        (tourRun ⟨1000000, 1, "at_start", none, 0, 1⟩ [5]
          (initSt [(1, some 5), (2, some 5)])
          [TourOp.join 1 0, TourOp.join 2 1]).bookings
      ∧ (⟨1, 2, BStatus.waitlist, 1, 1⟩ : Booking).seats = 1 :=
  ⟨by decide,
   C10_waitlist_single_seat ⟨1000000, 1, "at_start", none, 0, 1⟩ [5]
     [(1, some 5), (2, some 5)] [TourOp.join 1 0, TourOp.join 2 1]
     ⟨1, 2, BStatus.waitlist, 1, 1⟩ (by decide) (by decide)⟩

lemma mem_set_status_of_ne {bs : List Booking} {bid : Nat} {s : BStatus} {x : Booking}
    (hx : x ∈ bs) (hne : x.booking_id ≠ bid) : x ∈ set_status bs bid s := by
  unfold set_status
  have h2 : (if x.booking_id = bid then { x with status := s } else x) ∈
      bs.map (fun b => if b.booking_id = bid then { b with status := s } else b) :=
    List.mem_map_of_mem _ hx
  rwa [if_neg hne] at h2

lemma mem_set_status_self {bs : List Booking} {bid : Nat} {s : BStatus} {x : Booking}
    (hx : x ∈ bs) (he : x.booking_id = bid) : { x with status := s } ∈ set_status bs bid s := by
  unfold set_status
  have h2 : (if x.booking_id = bid then { x with status := s } else x) ∈
      bs.map (fun b => if b.booking_id = bid then { b with status := s } else b) :=
    List.mem_map_of_mem _ hx
  rwa [if_pos he] at h2

/-- C3: when a Leave cancels an active 1-seat booking of a tournament whose
waitlist holds a strictly earliest-created booking `A` (and `A`'s user holds
no other active booking, so the promotion's index check passes), the
promoted booking is exactly `A`: it is reported as the promotion, `A`'s row
becomes active, and every other waitlisted row — any later-created `B` — is
left waitlisted untouched. -/
theorem C3_waitlist_fifo
    (t : Tournament) (uid : Int) (now : Int) (st : St) (A b : Booking)
    (hnd : (st.bookings.map (·.booking_id)).Nodup)
    (hbk : get_user_booking_any st.bookings uid = some b)
    (hba : b.status = BStatus.active)
    (hb1 : b.seats = 1)
    (hnow : now < compute_cancel_deadline t.starts_at t.cancel_minutes_before)
    (hA : A ∈ st.bookings)
    (hAw : A.status = BStatus.waitlist)
    (hmin : ∀ c ∈ st.bookings, c.status = BStatus.waitlist → c ≠ A →
      A.created_at < c.created_at)
    (hnc : ∀ x ∈ st.bookings, x.user_id = A.user_id → x.status = BStatus.active →
      x.booking_id = b.booking_id) :
    (cb_tour_leave t uid now st).1 = LeaveRes.cancelled (some A.booking_id)
    ∧ ({ A with status := BStatus.active } : Booking) ∈ (cb_tour_leave t uid now st).2.bookings
    ∧ ∀ B ∈ st.bookings, B.status = BStatus.waitlist → B ≠ A →
        B ∈ (cb_tour_leave t uid now st).2.bookings := by
  have hbm := get_user_booking_any_eq_some hbk
  have hAb : A.booking_id ≠ b.booking_id := by
    intro he
    have hAB : A = b := eq_of_mem_of_id hnd hA hbm.1 he
    rw [hAB, hba] at hAw
    cases hAw
  have hnd1 : ((cancel_booking st.bookings b.booking_id).map (·.booking_id)).Nodup := by
    rw [cancel_booking_eq, ids_set_status]
    exact hnd
  have hA1 : A ∈ cancel_booking st.bookings b.booking_id := by
    rw [cancel_booking_eq]
    exact mem_set_status_of_ne hA hAb
  have hmin1 : ∀ c ∈ cancel_booking st.bookings b.booking_id,
      c.status = BStatus.waitlist → c ≠ A → A.created_at < c.created_at := by
    intro c hc hcw hcA
    rw [cancel_booking_eq] at hc
    rcases mem_set_status hc with ⟨y, hy, hce⟩
    subst hce
    by_cases hid : y.booking_id = b.booking_id
    · rw [if_pos hid] at hcw
      have : BStatus.cancelled = BStatus.waitlist := hcw
      cases this
    · rw [if_neg hid] at hcw hcA ⊢
      exact hmin y hy hcw hcA
  have hpop : pop_waitlist (cancel_booking st.bookings b.booking_id) = some A :=
    pop_waitlist_min hA1 hAw hmin1
  have hguard : ¬(BStatus.active = BStatus.active ∧
      ∃ x ∈ cancel_booking st.bookings b.booking_id,
        x.booking_id ≠ A.booking_id ∧ x.user_id = A.user_id ∧
          x.status = BStatus.active) := by
    rintro ⟨-, x, hx, hxid, hxu, hxa⟩
    rw [cancel_booking_eq] at hx
    rcases mem_set_status hx with ⟨y, hy, hxe⟩
    subst hxe
    by_cases hid : y.booking_id = b.booking_id
    · rw [if_pos hid] at hxa
      have : BStatus.cancelled = BStatus.active := hxa
      cases this
    · rw [if_neg hid] at hxid hxu hxa
      exact hid (hnc y hy hxu hxa)
  have hupd : update_booking_status (cancel_booking st.bookings b.booking_id)
      A.booking_id BStatus.active
      = some (set_status (cancel_booking st.bookings b.booking_id)
          A.booking_id BStatus.active) := by
    unfold update_booking_status
    split
    · rename_i hf
      rw [find?_id_of_nodup hnd1 hA1] at hf
      cases hf
    · rename_i b0 hf
      have hb0 : b0 = A := by
        have h2 := hf.symm.trans (find?_id_of_nodup hnd1 hA1)
        injection h2
      subst hb0
      rw [if_neg hguard]
  have hseats2 : ¬(b.status = BStatus.active ∧ 1 < b.seats) := by
    rintro ⟨-, hlt⟩
    omega
  simp only [cb_tour_leave, hbk, if_neg (not_le.mpr hnow), if_neg hseats2, if_pos hba,
    hpop, hupd]
  refine ⟨trivial, mem_set_status_self hA1 rfl, ?_⟩
  intro B hB hBw hBA
  have hBb : B.booking_id ≠ b.booking_id := by
    intro he
    have hBB : B = b := eq_of_mem_of_id hnd hB hbm.1 he
    rw [hBB, hba] at hBw
    cases hBw
  have hBA' : B.booking_id ≠ A.booking_id :=
    fun he => hBA (eq_of_mem_of_id hnd hB hA he)
  have h1 : B ∈ cancel_booking st.bookings b.booking_id := by
    rw [cancel_booking_eq]
    exact mem_set_status_of_ne hB hBb
  exact mem_set_status_of_ne h1 hBA'

/-- Witness for C3: users 2 and 3 are waitlisted in that order behind user
1's single active seat; user 1's leave promotes user 2's booking (id 1),
never user 3's. -/
theorem C3_waitlist_fifo_witness :
    (cb_tour_leave ⟨1000000, 1, "at_start", none, 0, 1⟩ 1 5
        ⟨[(1, some 5), (2, some 5), (3, some 5)],
         [⟨0, 1, BStatus.active, 1, 0⟩, ⟨1, 2, BStatus.waitlist, 1, 1⟩,
          ⟨2, 3, BStatus.waitlist, 1, 2⟩], [], 3, 3⟩).1
      = LeaveRes.cancelled (some 1)
    ∧ (⟨1, 2, BStatus.active, 1, 1⟩ : Booking) ∈
        (cb_tour_leave ⟨1000000, 1, "at_start", none, 0, 1⟩ 1 5
          ⟨[(1, some 5), (2, some 5), (3, some 5)],
           [⟨0, 1, BStatus.active, 1, 0⟩, ⟨1, 2, BStatus.waitlist, 1, 1⟩,
            ⟨2, 3, BStatus.waitlist, 1, 2⟩], [], 3, 3⟩).2.bookings := by
  have h := C3_waitlist_fifo ⟨1000000, 1, "at_start", none, 0, 1⟩ 1 5
    ⟨[(1, some 5), (2, some 5), (3, some 5)],
     [⟨0, 1, BStatus.active, 1, 0⟩, ⟨1, 2, BStatus.waitlist, 1, 1⟩,
      ⟨2, 3, BStatus.waitlist, 1, 2⟩], [], 3, 3⟩
    ⟨1, 2, BStatus.waitlist, 1, 1⟩ ⟨0, 1, BStatus.active, 1, 0⟩
    (by decide) (by decide) (by decide) (by decide) (by decide) (by decide)
    (by decide) (by decide) (by decide)
  exact ⟨h.1, h.2.1⟩

/-- C4 counterexample: the window-gating claim fails as stated.  With
`open_days_before = 0` and `open_time = 10:00` on a slot starting 09:00,
the open instant (36000) lies *after* the close instant (32400), and the
open check runs first (src/bot.py:667): Join at `closeInstant` returns
TooEarly, not Closed, and Join at `openInstant` returns Closed, not
success-or-Full.  Also, the group gate precedes the window checks: a user
outside the slot's group gets NotYourGroup at `openInstant − 1s`, not
TooEarly. -/
theorem C4_counterexample :
    (cb_train_join ⟨7, 32400, 1⟩ ⟨0, 10, 0, "at_start", none, 360⟩ 1 32400
        (initSt [(1, some 7)])).1 = JoinRes.tooEarly
    ∧ (cb_train_join ⟨7, 32400, 1⟩ ⟨0, 10, 0, "at_start", none, 360⟩ 1 36000
        (initSt [(1, some 7)])).1 = JoinRes.closed
    ∧ (cb_train_join ⟨7, 32400, 1⟩ ⟨0, 10, 0, "at_start", none, 360⟩ 2 35999
        (initSt [(1, some 7)])).1 = JoinRes.notYourGroup := by
  refine ⟨?_, ?_, ?_⟩ <;> decide

/-- C4 amended: for a user in the slot's group with no existing booking,
and a slot configuration whose open instant lies strictly before its close
instant, Join one second before the open instant returns TooEarly, Join at
the open instant returns success or Full, and Join at the close instant
returns Closed. -/
theorem C4_amended_window_gating
    (slot : Slot) (gs : GroupSettings) (uid : Int) (st : St)
    (hgrp : get_user st uid = some (some slot.group_id))
    (hnb : get_user_booking st.bookings uid = none)
    (hoc : compute_open_datetime slot.starts_at gs.open_days_before gs.open_h gs.open_m
      < compute_close_datetime slot.starts_at gs.close_mode gs.close_minutes_before) :
    (cb_train_join slot gs uid
        (compute_open_datetime slot.starts_at gs.open_days_before gs.open_h gs.open_m - 1)
        st).1 = JoinRes.tooEarly
    ∧ ((cb_train_join slot gs uid
          (compute_open_datetime slot.starts_at gs.open_days_before gs.open_h gs.open_m)
          st).1 = JoinRes.joined
        ∨ (cb_train_join slot gs uid
            (compute_open_datetime slot.starts_at gs.open_days_before gs.open_h gs.open_m)
            st).1 = JoinRes.full)
    ∧ (cb_train_join slot gs uid
        (compute_close_datetime slot.starts_at gs.close_mode gs.close_minutes_before)
        st).1 = JoinRes.closed := by
  refine ⟨?_, ?_, ?_⟩
  · simp only [cb_train_join]
    rw [if_neg (fun h => h hgrp), if_pos (by omega)]
  · simp only [cb_train_join]
    rw [if_neg (fun h => h hgrp), if_neg (lt_irrefl _), if_neg (not_le.mpr hoc)]
    by_cases hcap : slot.capacity ≤ count_active_bookings st.bookings
    · rw [if_pos hcap]
      exact Or.inr rfl
    · rw [if_neg hcap]
      simp only [hnb]
      exact Or.inl trivial
  · simp only [cb_train_join]
    rw [if_neg (fun h => h hgrp), if_neg (by omega), if_pos (le_refl _)]

/-- Witness for C4 on a well-formed slot: starts day 5 at 19:00, booking
opens 2 days before at 10:00 and closes at start. -/
theorem C4_amended_window_gating_witness :
    (cb_train_join ⟨7, 500400, 3⟩ ⟨2, 10, 0, "at_start", none, 360⟩ 1
        (compute_open_datetime 500400 2 10 0 - 1) (initSt [(1, some 7)])).1
      = JoinRes.tooEarly
    ∧ ((cb_train_join ⟨7, 500400, 3⟩ ⟨2, 10, 0, "at_start", none, 360⟩ 1
          (compute_open_datetime 500400 2 10 0) (initSt [(1, some 7)])).1 = JoinRes.joined
        ∨ (cb_train_join ⟨7, 500400, 3⟩ ⟨2, 10, 0, "at_start", none, 360⟩ 1
            (compute_open_datetime 500400 2 10 0) (initSt [(1, some 7)])).1 = JoinRes.full)
    ∧ (cb_train_join ⟨7, 500400, 3⟩ ⟨2, 10, 0, "at_start", none, 360⟩ 1
        (compute_close_datetime 500400 "at_start" none) (initSt [(1, some 7)])).1
      = JoinRes.closed :=
  C4_amended_window_gating ⟨7, 500400, 3⟩ ⟨2, 10, 0, "at_start", none, 360⟩ 1
    (initSt [(1, some 7)]) (by decide) (by decide) (by decide)

/-- C5 counterexample: in cb_train_join the capacity check precedes the
duplicate check (src/bot.py:679 vs 687), so an already-enrolled user on a
full training slot, inside the open window, receives Full rather than
AlreadyEnrolled. -/
theorem C5_counterexample :
    (cb_train_join ⟨7, 864000, 1⟩ ⟨2, 10, 0, "at_start", none, 360⟩ 1 800000
        ⟨[(1, some 7)], [⟨0, 1, BStatus.active, 1, 0⟩],
         [⟨0, PayStatus.pending, none, none⟩], 1, 1⟩).1 = JoinRes.full := by
  decide

/-- C5 amended: for tournaments the duplicate check does precede the
capacity check, so an enrolled (active or waitlisted) user always receives
AlreadyEnrolled inside the window, even on a full tournament; for training
slots the capacity check comes first, so an enrolled user receives Full
when the slot is full and AlreadyEnrolled only otherwise. -/
theorem C5_amended_enrolled_check_order :
    (∀ (t : Tournament) (tgroups : List Int) (uid now : Int) (st : St) (g : Int)
        (b : Booking),
      get_user st uid = some (some g) → g ≠ 0 → g ∈ tgroups →
      now < compute_close_datetime t.starts_at t.close_mode t.close_minutes_before →
      get_user_booking_any st.bookings uid = some b →
      (cb_tour_join t tgroups uid now st).1 = JoinRes.alreadyEnrolled)
    ∧ (∀ (slot : Slot) (gs : GroupSettings) (uid now : Int) (st : St) (b : Booking),
      get_user st uid = some (some slot.group_id) →
      compute_open_datetime slot.starts_at gs.open_days_before gs.open_h gs.open_m ≤ now →
      now < compute_close_datetime slot.starts_at gs.close_mode gs.close_minutes_before →
      get_user_booking st.bookings uid = some b →
      (cb_train_join slot gs uid now st).1
        = (if slot.capacity ≤ count_active_bookings st.bookings then JoinRes.full
            else JoinRes.alreadyEnrolled)) := by
  constructor
  · intro t tgroups uid now st g b hget hg0 hgm hclose hb
    simp only [cb_tour_join, hget]
    rw [if_neg hg0, if_neg (not_not_intro hgm), if_neg (not_le.mpr hclose)]
    simp only [hb]
  · intro slot gs uid now st b hgrp hopen hclose hb
    simp only [cb_train_join]
    rw [if_neg (fun h => h hgrp), if_neg (not_lt.mpr hopen), if_neg (not_le.mpr hclose)]
    by_cases hcap : slot.capacity ≤ count_active_bookings st.bookings
    · rw [if_pos hcap, if_pos hcap]
    · rw [if_neg hcap, if_neg hcap]
      simp only [hb]

/-- Witness for C5: a waitlisted user on a full tournament gets
AlreadyEnrolled; an active-enrolled user on a full training slot gets
Full. -/
theorem C5_amended_enrolled_check_order_witness :
    (cb_tour_join ⟨1000000, 1, "at_start", none, 0, 1⟩ [5] 2 0
        ⟨[(1, some 5), (2, some 5)],
         [⟨0, 1, BStatus.active, 1, 0⟩, ⟨1, 2, BStatus.waitlist, 1, 1⟩],
         [], 2, 2⟩).1 = JoinRes.alreadyEnrolled
    ∧ (cb_train_join ⟨7, 864000, 1⟩ ⟨2, 10, 0, "at_start", none, 360⟩ 1 800000
        ⟨[(1, some 7)], [⟨0, 1, BStatus.active, 1, 0⟩],
         [⟨0, PayStatus.pending, none, none⟩], 1, 1⟩).1 = JoinRes.full :=
  ⟨C5_amended_enrolled_check_order.1 ⟨1000000, 1, "at_start", none, 0, 1⟩ [5] 2 0
      ⟨[(1, some 5), (2, some 5)],
       [⟨0, 1, BStatus.active, 1, 0⟩, ⟨1, 2, BStatus.waitlist, 1, 1⟩], [], 2, 2⟩
      5 ⟨1, 2, BStatus.waitlist, 1, 1⟩
      (by decide) (by decide) (by decide) (by decide) (by decide),
   C5_amended_enrolled_check_order.2 ⟨7, 864000, 1⟩ ⟨2, 10, 0, "at_start", none, 360⟩
      1 800000
      ⟨[(1, some 7)], [⟨0, 1, BStatus.active, 1, 0⟩],
       [⟨0, PayStatus.pending, none, none⟩], 1, 1⟩
      ⟨0, 1, BStatus.active, 1, 0⟩
      (by decide) (by decide) (by decide) (by decide)⟩

lemma map_id_of_fix {bs : List Booking} {f : Booking → Booking}
    (h : ∀ b ∈ bs, f b = b) : bs.map f = bs := by
  induction bs with
  | nil => rfl
  | cons a tl ih =>
    rw [List.map_cons, h a (List.mem_cons_self a tl),
      ih (fun b hb => h b (List.mem_cons_of_mem a hb))]

/-- C6: a Leave that cancelled a booking is idempotent — re-issuing Leave
for the same user (at any later clock reading) finds no active booking and
reports NotEnrolled, not a double-cancellation fault; and db.cancel_booking
applied to rows that are already cancelled leaves the bookings table
unchanged. -/
theorem C6_idempotent_leave :
    (∀ (slot : Slot) (gs : GroupSettings) (uid now now' : Int) (st st' : St),
      (∀ x ∈ st.bookings, ∀ y ∈ st.bookings, x.user_id = uid → x.status = BStatus.active →
        y.user_id = uid → y.status = BStatus.active → x = y) →
      cb_train_leave slot gs uid now st = (LeaveRes.cancelled none, st') →
      (cb_train_leave slot gs uid now' st').1 = LeaveRes.notEnrolled)
    ∧ (∀ (bs : List Booking) (bid : Nat),
      (∀ b ∈ bs, b.booking_id = bid → b.status = BStatus.cancelled) →
      cancel_booking bs bid = bs) := by
  constructor
  · intro slot gs uid now now' st st' huniq h
    simp only [cb_train_leave] at h
    split at h
    · injection h with h1 h2
      cases h1
    · rename_i b hsome
      have hb := get_user_booking_eq_some hsome
      split at h
      · injection h with h1 h2
        cases h1
      · split at h
        · injection h with h1 h2
          cases h1
        · injection h with h1 h2
          subst h2
          have hnone : get_user_booking (cancel_booking st.bookings b.booking_id) uid
              = none := by
            unfold get_user_booking
            rw [List.find?_eq_none]
            intro x hx
            rw [decide_eq_true_eq]
            rintro ⟨hxu, hxa⟩
            rw [cancel_booking_eq] at hx
            rcases mem_set_status hx with ⟨y, hy, hxe⟩
            subst hxe
            by_cases hid : y.booking_id = b.booking_id
            · rw [if_pos hid] at hxa
              have : BStatus.cancelled = BStatus.active := hxa
              cases this
            · rw [if_neg hid] at hxu hxa
              exact hid (by rw [huniq y hy b hb.1 hxu hxa hb.2.1 hb.2.2])
          simp only [cb_train_leave, hnone]
  · intro bs bid h
    rw [cancel_booking_eq]
    unfold set_status
    apply map_id_of_fix
    intro b hb
    by_cases hid : b.booking_id = bid
    · rw [if_pos hid]
      have hc := h b hb hid
      cases b
      simp_all
    · rw [if_neg hid]

/-- Witness for C6: user 1 leaves a slot (cancelling booking 0), a second
leave reports NotEnrolled; cancelling the already-cancelled row again is a
no-op. -/
theorem C6_idempotent_leave_witness :
    (cb_train_leave ⟨7, 864000, 2⟩ ⟨2, 10, 0, "at_start", none, 0⟩ 1 5
        ((cb_train_leave ⟨7, 864000, 2⟩ ⟨2, 10, 0, "at_start", none, 0⟩ 1 4
          ⟨[(1, some 7)], [⟨0, 1, BStatus.active, 1, 0⟩],
           [⟨0, PayStatus.pending, none, none⟩], 1, 1⟩).2)).1 = LeaveRes.notEnrolled
    ∧ cancel_booking [⟨0, 1, BStatus.cancelled, 1, 0⟩] 0
        = [⟨0, 1, BStatus.cancelled, 1, 0⟩] :=
  ⟨C6_idempotent_leave.1 ⟨7, 864000, 2⟩ ⟨2, 10, 0, "at_start", none, 0⟩ 1 4 5
      ⟨[(1, some 7)], [⟨0, 1, BStatus.active, 1, 0⟩],
       [⟨0, PayStatus.pending, none, none⟩], 1, 1⟩
      ⟨[(1, some 7)], [⟨0, 1, BStatus.cancelled, 1, 0⟩],
       [⟨0, PayStatus.pending, none, none⟩], 1, 1⟩
      (by decide) (by decide),
   C6_idempotent_leave.2 [⟨0, 1, BStatus.cancelled, 1, 0⟩] 0 (by decide)⟩

lemma find?_append_of_none {l1 l2 : List Booking} {p : Booking → Bool}
    (h : ∀ x ∈ l1, ¬ p x) : (l1 ++ l2).find? p = l2.find? p := by
  induction l1 with
  | nil => rfl
  | cons a tl ih =>
    rw [List.cons_append, List.find?_cons_of_neg _ (h a (List.mem_cons_self a tl))]
    exact ih (fun x hx => h x (List.mem_cons_of_mem a hx))

lemma update_seats_append_fresh {bs : List Booking} {nb : Booking} {n : Nat}
    (h : ∀ b ∈ bs, b.booking_id ≠ nb.booking_id) :
    update_booking_seats (bs ++ [nb]) nb.booking_id n = bs ++ [{ nb with seats := n }] := by
  unfold update_booking_seats
  rw [List.map_append,
    map_id_of_fix (fun b hb => if_neg (h b hb))]
  simp

lemma set_status_append_fresh {bs : List Booking} {nb : Booking} {s : BStatus}
    (h : ∀ b ∈ bs, b.booking_id ≠ nb.booking_id) :
    set_status (bs ++ [nb]) nb.booking_id s = bs ++ [{ nb with status := s }] := by
  unfold set_status
  rw [List.map_append,
    map_id_of_fix (fun b hb => if_neg (h b hb))]
  simp

/-- The training-slot seat round-trip: Join, JoinSecondSeat, Leave, Leave by
a not-yet-enrolled user, inside the open and cancel windows with two free
seats, restores the active seat count. -/
lemma roundtrip_train (slot : Slot) (gs : GroupSettings) (uid now : Int) (st : St)
    (hid : ∀ b ∈ st.bookings, b.booking_id < st.next_id)
    (hgrp : get_user st uid = some (some slot.group_id))
    (hopen : compute_open_datetime slot.starts_at gs.open_days_before gs.open_h gs.open_m
      ≤ now)
    (hclose : now <
      compute_close_datetime slot.starts_at gs.close_mode gs.close_minutes_before)
    (hcdl : now < compute_cancel_deadline slot.starts_at gs.cancel_minutes_before)
    (hcap : count_active_bookings st.bookings + 2 ≤ slot.capacity)
    (hnb : get_user_booking st.bookings uid = none) :
    count_active_bookings (trainRun slot gs st
      [TrainOp.join uid now, TrainOp.join2 uid now, TrainOp.leave uid now,
       TrainOp.leave uid now]).bookings = count_active_bookings st.bookings := by
  have hfr : ∀ b ∈ st.bookings, b.booking_id ≠ st.next_id :=
    fun b hb => Nat.ne_of_lt (hid b hb)
  have hpnone : ∀ x ∈ st.bookings,
      ¬ (fun b => decide (b.user_id = uid ∧ b.status = BStatus.active)) x = true := by
    intro x hx hpx
    rw [decide_eq_true_eq] at hpx
    exact get_user_booking_eq_none hnb x hx hpx
  -- step 1: Join creates an active 1-seat booking
  have e1 : (cb_train_join slot gs uid now st).2 = (create_booking st uid BStatus.active 1).2 := by
    simp only [cb_train_join]
    rw [if_neg (fun h => h hgrp), if_neg (not_lt.mpr hopen), if_neg (not_le.mpr hclose),
      if_neg (by omega : ¬ slot.capacity ≤ count_active_bookings st.bookings)]
    simp only [hnb]
  have hcnt1 : count_active_bookings (create_booking st uid BStatus.active 1).2.bookings
      = count_active_bookings st.bookings + 1 := by
    rw [create_booking_bookings, count_active_append]
    simp
  have hfind1 : get_user_booking (create_booking st uid BStatus.active 1).2.bookings uid
      = some ⟨st.next_id, uid, BStatus.active, 1, st.clock⟩ := by
    rw [create_booking_bookings]
    unfold get_user_booking
    rw [find?_append_of_none hpnone, List.find?_cons_of_pos _ (by simp)]
  -- step 2: JoinSecondSeat bumps it to 2 seats
  have hgrp1 : get_user (create_booking st uid BStatus.active 1).2 uid
      = some (some slot.group_id) := hgrp
  have e2 : (cb_train_join_second slot gs uid now (create_booking st uid BStatus.active 1).2).2
      = { (create_booking st uid BStatus.active 1).2 with
          bookings := st.bookings ++ [⟨st.next_id, uid, BStatus.active, 2, st.clock⟩] } := by
    simp only [cb_train_join_second]
    rw [if_neg (fun h => h hgrp1), if_neg (not_lt.mpr hopen), if_neg (not_le.mpr hclose),
      if_neg (by rw [hcnt1]; omega :
        ¬ slot.capacity ≤ count_active_bookings (create_booking st uid BStatus.active 1).2.bookings)]
    simp only [hfind1]
    rw [if_neg (by simp :
        ¬ 2 ≤ (⟨st.next_id, uid, BStatus.active, 1, st.clock⟩ : Booking).seats)]
    rw [create_booking_bookings, update_seats_append_fresh hfr]
  -- step 3: first Leave drops back to 1 seat
  have hfind2 : get_user_booking
      (st.bookings ++ [⟨st.next_id, uid, BStatus.active, 2, st.clock⟩]) uid
      = some ⟨st.next_id, uid, BStatus.active, 2, st.clock⟩ := by
    unfold get_user_booking
    rw [find?_append_of_none hpnone, List.find?_cons_of_pos _ (by simp)]
  have e3 : (cb_train_leave slot gs uid now
      { (create_booking st uid BStatus.active 1).2 with
        bookings := st.bookings ++ [⟨st.next_id, uid, BStatus.active, 2, st.clock⟩] }).2
      = { (create_booking st uid BStatus.active 1).2 with
          bookings := st.bookings ++ [⟨st.next_id, uid, BStatus.active, 1, st.clock⟩] } := by
    simp only [cb_train_leave, hfind2]
    rw [if_neg (not_le.mpr hcdl),
      if_pos (by simp :
        1 < (⟨st.next_id, uid, BStatus.active, 2, st.clock⟩ : Booking).seats)]
    rw [update_seats_append_fresh hfr]
  -- step 4: second Leave cancels the booking
  have hfind3 : get_user_booking
      (st.bookings ++ [⟨st.next_id, uid, BStatus.active, 1, st.clock⟩]) uid
      = some ⟨st.next_id, uid, BStatus.active, 1, st.clock⟩ := by
    unfold get_user_booking
    rw [find?_append_of_none hpnone, List.find?_cons_of_pos _ (by simp)]
  have e4 : (cb_train_leave slot gs uid now
      { (create_booking st uid BStatus.active 1).2 with
        bookings := st.bookings ++ [⟨st.next_id, uid, BStatus.active, 1, st.clock⟩] }).2
      = { (create_booking st uid BStatus.active 1).2 with
          bookings := st.bookings ++ [⟨st.next_id, uid, BStatus.cancelled, 1, st.clock⟩] } := by
    simp only [cb_train_leave, hfind3]
    rw [if_neg (not_le.mpr hcdl),
      if_neg (by simp :
        ¬ 1 < (⟨st.next_id, uid, BStatus.active, 1, st.clock⟩ : Booking).seats)]
    rw [cancel_booking_eq, set_status_append_fresh hfr]
  show count_active_bookings
      ((cb_train_leave slot gs uid now ((cb_train_leave slot gs uid now
        ((cb_train_join_second slot gs uid now
          ((cb_train_join slot gs uid now st).2)).2)).2)).2).bookings
    = count_active_bookings st.bookings
  rw [e1, e2, e3, e4, count_active_append]
  simp

/-- The tournament seat round-trip: Join, JoinSecondSeat, Leave, Leave by a
not-yet-enrolled user, inside the windows with two free seats, restores the
active seat count — provided no booking is waitlisted when the sequence
starts (otherwise the final Leave promotes one). -/
lemma roundtrip_tour (t : Tournament) (tgroups : List Int) (uid now : Int) (st : St)
    (g : Int)
    (hid : ∀ b ∈ st.bookings, b.booking_id < st.next_id)
    (hget : get_user st uid = some (some g)) (hg0 : g ≠ 0) (hgm : g ∈ tgroups)
    (hclose : now < compute_close_datetime t.starts_at t.close_mode t.close_minutes_before)
    (hcdl : now < compute_cancel_deadline t.starts_at t.cancel_minutes_before)
    (hcap : count_active_bookings st.bookings + 2 ≤ t.capacity)
    (hnbany : get_user_booking_any st.bookings uid = none)
    (hwl : ∀ b ∈ st.bookings, b.status ≠ BStatus.waitlist) :
    count_active_bookings (tourRun t tgroups st
      [TourOp.join uid now, TourOp.join2 uid now, TourOp.leave uid now,
       TourOp.leave uid now]).bookings = count_active_bookings st.bookings := by
  have hfr : ∀ b ∈ st.bookings, b.booking_id ≠ st.next_id :=
    fun b hb => Nat.ne_of_lt (hid b hb)
  have hpnone : ∀ x ∈ st.bookings,
      ¬ (fun b => decide (b.user_id = uid ∧ b.status = BStatus.active)) x = true := by
    intro x hx hpx
    rw [decide_eq_true_eq] at hpx
    exact get_user_booking_any_eq_none hnbany x hx ⟨hpx.1, Or.inl hpx.2⟩
  have hpanone : ∀ x ∈ st.bookings,
      ¬ (fun b => decide (b.user_id = uid ∧
          (b.status = BStatus.active ∨ b.status = BStatus.waitlist))) x = true := by
    intro x hx hpx
    rw [decide_eq_true_eq] at hpx
    exact get_user_booking_any_eq_none hnbany x hx hpx
  -- step 1: Join creates an active 1-seat booking
  have e1 : (cb_tour_join t tgroups uid now st).2
      = (create_booking st uid BStatus.active 1).2 := by
    simp only [cb_tour_join, hget]
    rw [if_neg hg0, if_neg (not_not_intro hgm), if_neg (not_le.mpr hclose)]
    simp only [hnbany]
    rw [if_pos (by omega : count_active_bookings st.bookings < t.capacity)]
  have hcnt1 : count_active_bookings (create_booking st uid BStatus.active 1).2.bookings
      = count_active_bookings st.bookings + 1 := by
    rw [create_booking_bookings, count_active_append]
    simp
  have hfind1 : get_user_booking (create_booking st uid BStatus.active 1).2.bookings uid
      = some ⟨st.next_id, uid, BStatus.active, 1, st.clock⟩ := by
    rw [create_booking_bookings]
    unfold get_user_booking
    rw [find?_append_of_none hpnone, List.find?_cons_of_pos _ (by simp)]
  have hget1 : get_user (create_booking st uid BStatus.active 1).2 uid
      = some (some g) := hget
  -- step 2: JoinSecondSeat bumps it to 2 seats
  have e2 : (cb_tour_join_second t tgroups uid now
      (create_booking st uid BStatus.active 1).2).2
      = { (create_booking st uid BStatus.active 1).2 with
          bookings := st.bookings ++ [⟨st.next_id, uid, BStatus.active, 2, st.clock⟩] } := by
    simp only [cb_tour_join_second, hget1]
    rw [if_neg hg0, if_neg (not_not_intro hgm), if_neg (not_le.mpr hclose),
      if_neg (by rw [hcnt1]; omega :
        ¬ t.capacity ≤
          count_active_bookings (create_booking st uid BStatus.active 1).2.bookings)]
    simp only [hfind1]
    rw [if_neg (by simp :
        ¬ 2 ≤ (⟨st.next_id, uid, BStatus.active, 1, st.clock⟩ : Booking).seats)]
    rw [create_booking_bookings, update_seats_append_fresh hfr]
  -- step 3: first Leave drops back to 1 seat
  have hfindany2 : get_user_booking_any
      (st.bookings ++ [⟨st.next_id, uid, BStatus.active, 2, st.clock⟩]) uid
      = some ⟨st.next_id, uid, BStatus.active, 2, st.clock⟩ := by
    unfold get_user_booking_any
    rw [find?_append_of_none hpanone, List.find?_cons_of_pos _ (by simp)]
  have e3 : (cb_tour_leave t uid now
      { (create_booking st uid BStatus.active 1).2 with
        bookings := st.bookings ++ [⟨st.next_id, uid, BStatus.active, 2, st.clock⟩] }).2
      = { (create_booking st uid BStatus.active 1).2 with
          bookings := st.bookings ++ [⟨st.next_id, uid, BStatus.active, 1, st.clock⟩] } := by
    simp only [cb_tour_leave, hfindany2]
    rw [if_neg (not_le.mpr hcdl), if_pos (show True ∧ 1 < 2 by norm_num)]
    rw [update_seats_append_fresh hfr]
  -- step 4: second Leave cancels; the empty waitlist yields no promotion
  have hfindany3 : get_user_booking_any
      (st.bookings ++ [⟨st.next_id, uid, BStatus.active, 1, st.clock⟩]) uid
      = some ⟨st.next_id, uid, BStatus.active, 1, st.clock⟩ := by
    unfold get_user_booking_any
    rw [find?_append_of_none hpanone, List.find?_cons_of_pos _ (by simp)]
  have hpop : pop_waitlist
      (st.bookings ++ [⟨st.next_id, uid, BStatus.cancelled, 1, st.clock⟩]) = none := by
    apply pop_waitlist_eq_none
    intro b hb
    rcases List.mem_append.mp hb with hb' | hb'
    · exact hwl b hb'
    · rw [List.mem_singleton.mp hb']
      simp
  have e4 : (cb_tour_leave t uid now
      { (create_booking st uid BStatus.active 1).2 with
        bookings := st.bookings ++ [⟨st.next_id, uid, BStatus.active, 1, st.clock⟩] }).2
      = { (create_booking st uid BStatus.active 1).2 with
          bookings := st.bookings ++ [⟨st.next_id, uid, BStatus.cancelled, 1, st.clock⟩] } := by
    simp only [cb_tour_leave, hfindany3]
    rw [if_neg (not_le.mpr hcdl), if_neg (show ¬(True ∧ 1 < 1) by norm_num)]
    rw [cancel_booking_eq, set_status_append_fresh hfr]
    rw [if_pos trivial]
    simp only [hpop]
  show count_active_bookings
      ((cb_tour_leave t uid now ((cb_tour_leave t uid now
        ((cb_tour_join_second t tgroups uid now
          ((cb_tour_join t tgroups uid now st).2)).2)).2)).2).bookings
    = count_active_bookings st.bookings
  rw [e1, e2, e3, e4, count_active_append]
  simp

/-- C7 counterexample: the round-trip claim fails on a tournament with a
waitlisted booking.  Capacity-4 tournament, waitlist limit 1: users 1 and 2
take two seats each, user 3 is waitlisted, users 1 and 2 each release one
seat (no promotion on seat decrements), leaving 2 active seats and user 3
still waitlisted.  User 4  — not enrolled, with a free seat at every call,
inside all windows — then runs Join; JoinSecondSeat; Leave; Leave: each
call succeeds, but the final Leave promotes user 3's booking, so the
active seat count ends at 3, not the original 2. -/
theorem C7_counterexample :
    count_active_bookings (tourRun ⟨1000000, 4, "at_start", none, 0, 1⟩ [5]
      (initSt [(1, some 5), (2, some 5), (3, some 5), (4, some 5)])
      [TourOp.join 1 0, TourOp.join2 1 1, TourOp.join 2 2, TourOp.join2 2 3,
       TourOp.join 3 4, TourOp.leave 1 5, TourOp.leave 2 6]).bookings = 2
    ∧ (cb_tour_join ⟨1000000, 4, "at_start", none, 0, 1⟩ [5] 4 7
        (tourRun ⟨1000000, 4, "at_start", none, 0, 1⟩ [5]
          (initSt [(1, some 5), (2, some 5), (3, some 5), (4, some 5)])
          [TourOp.join 1 0, TourOp.join2 1 1, TourOp.join 2 2, TourOp.join2 2 3,
           TourOp.join 3 4, TourOp.leave 1 5, TourOp.leave 2 6])).1 = JoinRes.joined
    ∧ (cb_tour_join_second ⟨1000000, 4, "at_start", none, 0, 1⟩ [5] 4 8
        (tourRun ⟨1000000, 4, "at_start", none, 0, 1⟩ [5]
          (initSt [(1, some 5), (2, some 5), (3, some 5), (4, some 5)])
          [TourOp.join 1 0, TourOp.join2 1 1, TourOp.join 2 2, TourOp.join2 2 3,
           TourOp.join 3 4, TourOp.leave 1 5, TourOp.leave 2 6,
           TourOp.join 4 7])).1 = JoinRes.seatAdded
    ∧ (cb_tour_leave ⟨1000000, 4, "at_start", none, 0, 1⟩ 4 9
        (tourRun ⟨1000000, 4, "at_start", none, 0, 1⟩ [5]
          (initSt [(1, some 5), (2, some 5), (3, some 5), (4, some 5)])
          [TourOp.join 1 0, TourOp.join2 1 1, TourOp.join 2 2, TourOp.join2 2 3,
           TourOp.join 3 4, TourOp.leave 1 5, TourOp.leave 2 6,
           TourOp.join 4 7, TourOp.join2 4 8])).1 = LeaveRes.seatRemoved
    ∧ (cb_tour_leave ⟨1000000, 4, "at_start", none, 0, 1⟩ 4 10
        (tourRun ⟨1000000, 4, "at_start", none, 0, 1⟩ [5]
          (initSt [(1, some 5), (2, some 5), (3, some 5), (4, some 5)])
          [TourOp.join 1 0, TourOp.join2 1 1, TourOp.join 2 2, TourOp.join2 2 3,
           TourOp.join 3 4, TourOp.leave 1 5, TourOp.leave 2 6,
           TourOp.join 4 7, TourOp.join2 4 8, TourOp.leave 4 9])).1
        = LeaveRes.cancelled (some 2)
    ∧ count_active_bookings (tourRun ⟨1000000, 4, "at_start", none, 0, 1⟩ [5]
        (initSt [(1, some 5), (2, some 5), (3, some 5), (4, some 5)])
        [TourOp.join 1 0, TourOp.join2 1 1, TourOp.join 2 2, TourOp.join2 2 3,
         TourOp.join 3 4, TourOp.leave 1 5, TourOp.leave 2 6,
         TourOp.join 4 7, TourOp.join2 4 8, TourOp.leave 4 9,
         TourOp.leave 4 10]).bookings = 3 := by
  refine ⟨?_, ?_, ?_, ?_, ?_, ?_⟩ <;> decide

/-- C7 amended: for a user not yet enrolled, with all four calls inside the
open/cancel windows and two free seats, the sequence Join; JoinSecondSeat;
Leave; Leave restores the entity's active seat count — unconditionally for
training slots, and for tournaments provided the entity holds no
Waitlisted booking at the start of the sequence (otherwise the final Leave
promotes one waitlisted booking and the count ends one higher). -/
theorem C7_amended_roundtrip :
    (∀ (slot : Slot) (gs : GroupSettings) (uid now : Int) (st : St),
      (∀ b ∈ st.bookings, b.booking_id < st.next_id) →
      get_user st uid = some (some slot.group_id) →
      compute_open_datetime slot.starts_at gs.open_days_before gs.open_h gs.open_m ≤ now →
      now < compute_close_datetime slot.starts_at gs.close_mode gs.close_minutes_before →
      now < compute_cancel_deadline slot.starts_at gs.cancel_minutes_before →
      count_active_bookings st.bookings + 2 ≤ slot.capacity →
      get_user_booking st.bookings uid = none →
      count_active_bookings (trainRun slot gs st
        [TrainOp.join uid now, TrainOp.join2 uid now, TrainOp.leave uid now,
         TrainOp.leave uid now]).bookings = count_active_bookings st.bookings)
    ∧ (∀ (t : Tournament) (tgroups : List Int) (uid now : Int) (st : St) (g : Int),
      (∀ b ∈ st.bookings, b.booking_id < st.next_id) →
      get_user st uid = some (some g) → g ≠ 0 → g ∈ tgroups →
      now < compute_close_datetime t.starts_at t.close_mode t.close_minutes_before →
      now < compute_cancel_deadline t.starts_at t.cancel_minutes_before →
      count_active_bookings st.bookings + 2 ≤ t.capacity →
      get_user_booking_any st.bookings uid = none →
      (∀ b ∈ st.bookings, b.status ≠ BStatus.waitlist) →
      count_active_bookings (tourRun t tgroups st
        [TourOp.join uid now, TourOp.join2 uid now, TourOp.leave uid now,
         TourOp.leave uid now]).bookings = count_active_bookings st.bookings) :=
  ⟨fun slot gs uid now st hid hgrp hopen hclose hcdl hcap hnb =>
      roundtrip_train slot gs uid now st hid hgrp hopen hclose hcdl hcap hnb,
   fun t tgroups uid now st g hid hget hg0 hgm hclose hcdl hcap hnbany hwl =>
      roundtrip_tour t tgroups uid now st g hid hget hg0 hgm hclose hcdl hcap hnbany hwl⟩

/-- Witness for C7: the round-trip on a fresh 2-capacity slot and a fresh
2-capacity tournament, both counts returning to 0. -/
theorem C7_amended_roundtrip_witness :
    count_active_bookings (trainRun ⟨7, 500400, 2⟩ ⟨2, 10, 0, "at_start", none, 360⟩
        (initSt [(1, some 7)])
        [TrainOp.join 1 400000, TrainOp.join2 1 400000, TrainOp.leave 1 400000,
         TrainOp.leave 1 400000]).bookings
      = count_active_bookings (initSt [(1, some 7)]).bookings
    ∧ count_active_bookings (tourRun ⟨1000000, 2, "at_start", none, 0, 1⟩ [5]
        (initSt [(1, some 5)])
        [TourOp.join 1 0, TourOp.join2 1 0, TourOp.leave 1 0,
         TourOp.leave 1 0]).bookings
      = count_active_bookings (initSt [(1, some 5)]).bookings :=
  ⟨C7_amended_roundtrip.1 ⟨7, 500400, 2⟩ ⟨2, 10, 0, "at_start", none, 360⟩ 1 400000
      (initSt [(1, some 7)]) (by decide) (by decide) (by decide) (by decide)
      (by decide) (by decide) (by decide),
   C7_amended_roundtrip.2 ⟨1000000, 2, "at_start", none, 0, 1⟩ [5] 1 0
      (initSt [(1, some 5)]) 5 (by decide) (by decide) (by decide) (by decide)
      (by decide) (by decide) (by decide) (by decide) (by decide)⟩

/-- C8: the admin book-for-other flow (which performs no open-window check
— its embedding takes no clock reading at all, mirroring src/bot.py:2668
where no open/close instant is computed) returns Full, leaving the store
untouched, when the active seat count has reached capacity; otherwise it
registers a synthetic guest user — whose id is always negative and distinct
from every existing user id — and appends an Active 1-seat booking for it. -/
theorem C8_admin_book (slot : Slot) (st : St) :
    ((create_guest_user st none).1 < 0 ∧ (create_guest_user st none).1 ∉ uidsOf st)
    ∧ (slot.capacity ≤ count_active_bookings st.bookings →
        admin_training_book slot st = (AdminBookRes.full, st))
    ∧ (count_active_bookings st.bookings < slot.capacity →
        (admin_training_book slot st).1
            = AdminBookRes.booked (create_guest_user st none).1
          ∧ (admin_training_book slot st).2.bookings
            = st.bookings ++ [⟨st.next_id, (create_guest_user st none).1,
                BStatus.active, 1, st.clock⟩]) := by
  refine ⟨create_guest_user_fresh st none, ?_, ?_⟩
  · intro h
    simp only [admin_training_book]
    rw [if_pos h]
  · intro h
    simp only [admin_training_book]
    rw [if_neg (not_le.mpr h)]
    exact ⟨rfl, rfl⟩

/-- Witness for C8: on a fresh one-user store, the guest id is −1 and
fresh; a capacity-0 slot yields Full; a capacity-2 slot books the guest. -/
theorem C8_admin_book_witness :
    ((create_guest_user (initSt [(1, some 7)]) none).1 < 0
      ∧ (create_guest_user (initSt [(1, some 7)]) none).1 ∉ uidsOf (initSt [(1, some 7)]))
    ∧ admin_training_book ⟨7, 100, 0⟩ (initSt [(1, some 7)])
        = (AdminBookRes.full, initSt [(1, some 7)])
    ∧ (admin_training_book ⟨7, 100, 2⟩ (initSt [(1, some 7)])).1
        = AdminBookRes.booked (-1) :=
  ⟨(C8_admin_book ⟨7, 100, 2⟩ (initSt [(1, some 7)])).1,
   (C8_admin_book ⟨7, 100, 0⟩ (initSt [(1, some 7)])).2.1 (by decide),
   ((C8_admin_book ⟨7, 100, 2⟩ (initSt [(1, some 7)])).2.2 (by decide)).1⟩

/-- C9: toggle_payment flips the booking's payment status between Pending
and Confirmed — Confirmed becomes Pending, anything else (Pending, a
missing row inserted as Pending, or even Rejected) becomes Confirmed, so
the result is never Rejected — and leaves the bookings and users tables,
hence every booking's status and seats, completely unchanged. -/
theorem C9_toggle_payment (st : St) (bid : Nat) (admin_id : Int) :
    (toggle_payment st bid admin_id).1 ≠ PayStatus.rejected
    ∧ (toggle_payment st bid admin_id).1
        = (match st.payments.find? (fun p => decide (p.booking_id = bid)) with
           | some row => if row.status = PayStatus.confirmed then PayStatus.pending
                          else PayStatus.confirmed
           | none => PayStatus.confirmed)
    ∧ (toggle_payment st bid admin_id).2.bookings = st.bookings
    ∧ (toggle_payment st bid admin_id).2.users = st.users := by
  rcases hf : st.payments.find? (fun p => decide (p.booking_id = bid)) with _ | row
  · refine ⟨?_, ?_, ?_, ?_⟩ <;> simp [toggle_payment, hf]
  · by_cases hrow : row.status = PayStatus.confirmed
    · refine ⟨?_, ?_, ?_, ?_⟩ <;> simp [toggle_payment, hf, hrow]
    · refine ⟨?_, ?_, ?_, ?_⟩ <;> simp [toggle_payment, hf, hrow]

end TrainerBot
